import Mathlib

/-!
# Request decoders of `user/transport.go`

A shallow embedding of the eight request decoders of package `user`
(`decodeCreateUserRequest` ... `decodeUpdatePasswordEndpoint`) together with the
library behaviour they rely on:

* `strconv.ParseInt(s, 10, 64)` (with `strconv.ParseUint`), bytes and machine
  integers as `Nat` with the overflow tests of the Go loop spelled out;
* `json.NewDecoder(r.Body).Decode(&body)` for a struct whose fields all have type
  `null.String`, including the field lookup of `encoding/json` (exact name first,
  case-folded name second) and `null.String.UnmarshalJSON`;
* `mux.Vars(r)["id"]`, a map lookup that yields the empty string for a missing key;
* `err.Error()` on a nil `error`, which is a run-time panic.

Logging (`log.Debugf`) has no effect on the returned values and is modelled only
through the evaluation of its arguments.
-/

set_option autoImplicit false

namespace user

/-! ## strconv -/

/-- The `Err` field of a `*strconv.NumError`: `strconv.ErrSyntax` or `strconv.ErrRange`. -/
inductive NumError where
  | ErrSyntax
  | ErrRange
deriving DecidableEq, Repr

/-- The text `(*NumError).Error()` ends with. -/
def NumError.Error : NumError → String
  | .ErrSyntax => "invalid syntax"
  | .ErrRange => "value out of range"

/-- The largest `uint64`, `1<<64 - 1`. -/
def maxUint64 : Nat := 2 ^ 64 - 1

/-- Go's `lower(c)`, that is `c | ('x' - 'X')`, on a byte value. -/
def lower (c : Nat) : Nat := c ||| 0x20

/-- The `switch` at the head of the loop of `strconv.ParseUint`, with `base0 = false`:
the digit value of a byte, or `none` for the `default` branch. A character outside
ASCII is encoded by bytes `>= 0x80`, each of which takes the `default` branch, as
does the code point itself here. -/
def digitVal (c : Char) : Option Nat :=
  if '0'.toNat ≤ c.toNat ∧ c.toNat ≤ '9'.toNat then some (c.toNat - '0'.toNat)
  else if 'a'.toNat ≤ lower c.toNat ∧ lower c.toNat ≤ 'z'.toNat then
    some (lower c.toNat - 'a'.toNat + 10)
  else none

/-- The loop of `strconv.ParseUint(s, 10, 64)`: `n` is the `uint64` accumulator,
`cutoff = maxUint64/10 + 1`, `maxVal = 1<<64 - 1`, and `n + d` wraps modulo `2^64`. -/
def parseUintLoop : List Char → Nat → Nat × Option NumError
  | [], n => (n, none)
  | c :: cs, n =>
    match digitVal c with
    | none => (0, some .ErrSyntax)
    | some d =>
      if d ≥ 10 then (0, some .ErrSyntax)
      else if n ≥ maxUint64 / 10 + 1 then (maxUint64, some .ErrRange)
      else
        let n10 := n * 10
        let n1 := (n10 + d) % 2 ^ 64
        if n1 < n10 ∨ n1 > maxUint64 then (maxUint64, some .ErrRange)
        else parseUintLoop cs n1

/-- Model of `strconv.ParseUint(s, 10, 64)`. -/
def ParseUint (s : List Char) : Nat × Option NumError :=
  if s = [] then (0, some .ErrSyntax) else parseUintLoop s 0

/-- The conversion `int64(un)` of a `uint64`. -/
def toInt64 (un : Nat) : Int :=
  if un % 2 ^ 64 < 2 ^ 63 then (un % 2 ^ 64 : Nat) else ((un % 2 ^ 64 : Nat) : Int) - 2 ^ 64

/-- Negation of an `int64`, wrapping at `-2^63`. -/
def negInt64 (n : Int) : Int :=
  if n = -(2 ^ 63) then n else -n

/-- Model of `strconv.ParseInt(s, 10, 64)`: the pair `(i, err)` it returns. -/
def ParseInt (s : String) : Int × Option NumError :=
  match s.data with
  | [] => (0, some .ErrSyntax)
  | c :: cs =>
    let neg := decide (c = '-')
    let s1 := if c = '+' ∨ c = '-' then cs else c :: cs
    let (un, err) := ParseUint s1
    if err.isSome ∧ err ≠ some .ErrRange then (0, err)
    else
      let cutoff : Nat := 2 ^ 63
      if neg = false ∧ un ≥ cutoff then ((cutoff : Int) - 1, some .ErrRange)
      else if neg = true ∧ un > cutoff then (-(cutoff : Int), some .ErrRange)
      else
        let n := toInt64 un
        (if neg then negInt64 n else n, none)

/-! ## encoding/json and null.String -/

/-- A JSON value as read by `encoding/json`; an object keeps its members in the
order of the text, duplicates included. -/
inductive JSON where
  | null
  | bool (b : Bool)
  | number (lit : String)
  | string (s : String)
  | array (elems : List JSON)
  | object (members : List (String × JSON))

/-- The `Value` field of a `*json.UnmarshalTypeError`. -/
def JSON.kind : JSON → String
  | .null => "null"
  | .bool _ => "bool"
  | .number _ => "number"
  | .string _ => "string"
  | .array _ => "array"
  | .object _ => "object"

/-- An error returned by `Decode`: the text is not JSON (`*json.SyntaxError`,
`io.EOF`, ...), or a value has the wrong type for its target
(`*json.UnmarshalTypeError`, with its `Value` and the target type). -/
inductive DecodeError where
  | malformed (msg : String)
  | UnmarshalTypeError (value : String) (target : String)
deriving DecidableEq, Repr

/-- What the decoder reads from `r.Body`: no JSON value (with the decoder's error),
or the first JSON value of the stream. -/
inductive Body where
  | malformed (msg : String)
  | value (j : JSON)

/-- The type `null.String` of `github.com/volatiletech/null`. -/
structure NullString where
  String : String
  Valid : Bool
deriving DecidableEq, Repr

/-- The zero value of `null.String`. -/
def NullString.zero : NullString := ⟨"", false⟩

/-- Model of `(*null.String).UnmarshalJSON`: `null` gives the invalid empty string, a
JSON string gives a valid one, anything else is the error of
`json.Unmarshal(data, &s.String)`. -/
def NullString.UnmarshalJSON (data : JSON) : Except DecodeError NullString :=
  match data with
  | .null => .ok ⟨"", false⟩
  | .string x => .ok ⟨x, true⟩
  | v => .error (.UnmarshalTypeError v.kind "string")

/-- The case folding of one rune in `encoding/json`: the smallest member of its
simple-folding orbit. For the orbits that meet ASCII these are the upper-case letters,
with the Kelvin sign (U+212A) in the orbit of `K` and the long s (U+017F) in the
orbit of `S`. -/
def foldRune (c : Char) : Char :=
  if c.toNat = 0x212A then 'K'
  else if c.toNat = 0x017F then 'S'
  else c.toUpper

/-- Model of `foldName` in `encoding/json`. -/
def foldName (s : String) : List Char := s.data.map foldRune

/-- Whether a struct field named `name` matches the object key `key` up to case. -/
def equalFold (name key : String) : Bool := foldName name == foldName key

/-- The field search of `(*decodeState).object`: over the fields in declaration
order, an exactly equal name ends the search, and otherwise the first field whose
name matches up to case is kept. -/
def findFieldLoop (key : String) : List String → Option String → Option String
  | [], f => f
  | ff :: rest, f =>
    if ff = key then some ff
    else findFieldLoop key rest (if f.isNone ∧ equalFold ff key then some ff else f)

/-- The struct field (by its JSON name) that receives the member with key `key`. -/
def findField (fields : List String) (key : String) : Option String :=
  findFieldLoop key fields none

/-- A struct all of whose fields have type `null.String`, indexed by the JSON name
of the field. -/
def Struct := String → NullString

/-- The zero value of such a struct. -/
def Struct.zero : Struct := fun _ => NullString.zero

/-- Assignment to one field. -/
def Struct.set (st : Struct) (name : String) (v : NullString) : Struct :=
  fun n => if n = name then v else st n

/-- Decoding the members of an object into a struct with the given field names:
members are taken in order, a member that matches no field is skipped, and the first
error of an `UnmarshalJSON` ends the decoding. -/
def decodeObject (fields : List String) : List (String × JSON) → Struct → Except DecodeError Struct
  | [], st => .ok st
  | (k, v) :: rest, st =>
    match findField fields k with
    | none => decodeObject fields rest st
    | some f =>
      match NullString.UnmarshalJSON v with
      | .error e => .error e
      | .ok ns => decodeObject fields rest (st.set f ns)

/-- Model of `json.NewDecoder(r.Body).Decode(&body)` for a freshly declared struct
`body` with the given field names: a top-level `null` leaves the struct at its zero
value, an object is decoded member by member, any other value is a type error. -/
def Decode (fields : List String) : Body → Except DecodeError Struct
  | .malformed msg => .error (.malformed msg)
  | .value .null => .ok Struct.zero
  | .value (.object members) => decodeObject fields members Struct.zero
  | .value v => .error (.UnmarshalTypeError v.kind "struct")

/-! ## The request and the results -/

/-- The part of `*http.Request` the decoders read: the route variables of
`mux.Vars(r)` and the body. -/
structure Request where
  vars : List (String × String)
  body : Body

/-- The expression `mux.Vars(r)[key]`: the zero value `""` when the key is missing. -/
def Vars (r : Request) (key : String) : String :=
  match r.vars.find? (fun kv => kv.1 == key) with
  | some kv => kv.2
  | none => ""

/-- Modelled from the spec: the errors a decoder returns. `ErrInvalidRequest` is a
package variable declared outside `transport.go` (the spec's `InvalidRequest`); the
other case is the error of the body decoder, returned as it is. -/
inductive Error where
  | ErrInvalidRequest
  | decode (e : DecodeError)
deriving DecidableEq, Repr

/-- The outcome of calling a decoder: `return req, nil`, `return nil, err`, or a
run-time panic (nil dereference). -/
inductive Result (α : Type) where
  | ok (req : α)
  | err (e : Error)
  | panic
deriving DecidableEq, Repr

/-- The call `err.Error()` on a value of interface type `error`: `none` stands for
the panic on a nil `err`. -/
def errorString (err : Option NumError) : Option String :=
  err.map NumError.Error

/-! ## The request types

The request types and `ErrInvalidRequest` are declared in other files of package
`user`; `transport.go` fixes their fields through the composite literals it builds. -/

/-- Modelled from the spec: the CreateUserCommand, built by the literal
`&createUserRequest{Name, Password, Email}`; the type declaration is outside
`transport.go`. -/
structure createUserRequest where
  Name : NullString
  Password : NullString
  Email : NullString
deriving DecidableEq, Repr

/-- Modelled from the spec: the UpdateUserCommand, built by the literal
`&updateUserRequest{ID, Name, Password, Email}`; the type declaration is outside
`transport.go`. -/
structure updateUserRequest where
  ID : Int
  Name : NullString
  Password : NullString
  Email : NullString
deriving DecidableEq, Repr

/-- A value stored in a `patchUserRequest`: the `int64` identifier or a string. -/
inductive Value where
  | int64 (i : Int)
  | string (s : String)
deriving DecidableEq, Repr

/-- Modelled from the spec: the PatchUserCommand, a Go map from field name to value
(the literal `patchUserRequest{"id": id}` and the assignments `req[k] = v`); the type
declaration is outside `transport.go`. The map is kept as a list of entries with
distinct keys. -/
def patchUserRequest := List (String × Value)

instance : DecidableEq patchUserRequest := inferInstanceAs (DecidableEq (List (String × Value)))

/-- The assignment `req[k] = v` on a Go map: replaces the entry of `k`, or adds one. -/
def patchUserRequest.set : patchUserRequest → String → Value → patchUserRequest
  | [], k, v => [(k, v)]
  | (k1, v1) :: rest, k, v =>
    if k1 = k then (k, v) :: rest else (k1, v1) :: patchUserRequest.set rest k v

/-- The read `req[k]` with the comma-ok form. -/
def patchUserRequest.get (req : patchUserRequest) (k : String) : Option Value :=
  (List.find? (fun kv => kv.1 == k) req).map Prod.snd

/-- Go's `len(req)` on a map. -/
def patchUserRequest.len (req : patchUserRequest) : Nat := List.length req

/-- The keys of the map. -/
def patchUserRequest.keys (req : patchUserRequest) : List String := List.map Prod.fst req

/-- Modelled from the spec: the DeleteUserCommand, built by `&deleteUserRequest{ID: id}`;
the type declaration is outside `transport.go`. -/
structure deleteUserRequest where
  ID : Int
deriving DecidableEq, Repr

/-- Modelled from the spec: the GetUserCommand, built by `&getUserRequest{ID: id}`;
the type declaration is outside `transport.go`. -/
structure getUserRequest where
  ID : Int
deriving DecidableEq, Repr

/-- Modelled from the spec: the ResetPasswordCommand, built by
`&resetPasswordRequest{NameOrEmail}`; the type declaration is outside `transport.go`. -/
structure resetPasswordRequest where
  NameOrEmail : NullString
deriving DecidableEq, Repr

/-- Modelled from the spec: the CreatePasswordCommand, built by
`&createPasswordRequest{ID, Token, NewPassword}`; the type declaration is outside
`transport.go`. -/
structure createPasswordRequest where
  ID : Int
  Token : NullString
  NewPassword : NullString
deriving DecidableEq, Repr

/-- Modelled from the spec: the UpdatePasswordCommand, built by
`&updatePasswordRequest{ID, Password, NewPassword}`; the type declaration is outside
`transport.go`. -/
structure updatePasswordRequest where
  ID : Int
  Password : NullString
  NewPassword : NullString
deriving DecidableEq, Repr

/-! ## The decoders of `transport.go` -/

/-- The JSON names of the body struct of the user decoders
(tags `json:"name"`, `json:"password"`, `json:"email"`). -/
def userFields : List String := ["name", "password", "email"]

/-- Embedding of `decodeCreateUserRequest`. -/
def decodeCreateUserRequest (r : Request) : Result createUserRequest :=
  match Decode userFields r.body with
  | .error e => .err (.decode e)
  | .ok body =>
    .ok { Name := body "name", Password := body "password", Email := body "email" }

/-- Embedding of `decodeUpdateUserRequest`: the guard is `err != nil` alone. -/
def decodeUpdateUserRequest (r : Request) : Result updateUserRequest :=
  let vars := Vars r
  let (id, err) := ParseInt (vars "id")
  if err ≠ none then
    match errorString err with
    | none => .panic
    | some _ => .err .ErrInvalidRequest
  else
    match Decode userFields r.body with
    | .error e => .err (.decode e)
    | .ok body =>
      .ok { ID := id, Name := body "name", Password := body "password",
            Email := body "email" }

/-- Embedding of `decodePatchUserRequest`: the guard is `err != nil || id <= 0`, and
its branch evaluates `err.Error()` for the log line before it returns. -/
def decodePatchUserRequest (r : Request) : Result patchUserRequest :=
  let vars := Vars r
  let (id, err) := ParseInt (vars "id")
  if err ≠ none ∨ id ≤ 0 then
    match errorString err with
    | none => .panic
    | some _ => .err .ErrInvalidRequest
  else
    match Decode userFields r.body with
    | .error e => .err (.decode e)
    | .ok body =>
      let req : patchUserRequest := [("id", .int64 id)]
      let req := if (body "name").Valid then req.set "name" (.string (body "name").String) else req
      let req :=
        if (body "password").Valid then req.set "password" (.string (body "password").String)
        else req
      let req := if (body "email").Valid then req.set "email" (.string (body "email").String) else req
      if req.len < 2 then .err .ErrInvalidRequest else .ok req

/-- Embedding of `decodeDeleteUserRequest`: the same guard and log line as in
`decodePatchUserRequest`. -/
def decodeDeleteUserRequest (r : Request) : Result deleteUserRequest :=
  let vars := Vars r
  let (id, err) := ParseInt (vars "id")
  if err ≠ none ∨ id ≤ 0 then
    match errorString err with
    | none => .panic
    | some _ => .err .ErrInvalidRequest
  else .ok { ID := id }

/-- Embedding of `decodeGetUserRequest`. -/
def decodeGetUserRequest (r : Request) : Result getUserRequest :=
  let vars := Vars r
  let (id, err) := ParseInt (vars "id")
  if err ≠ none then
    match errorString err with
    | none => .panic
    | some _ => .err .ErrInvalidRequest
  else .ok { ID := id }

/-- Embedding of `decodeResetPasswordRequest` (tag `json:"name_or_email"`). -/
def decodeResetPasswordRequest (r : Request) : Result resetPasswordRequest :=
  match Decode ["name_or_email"] r.body with
  | .error e => .err (.decode e)
  | .ok body => .ok { NameOrEmail := body "name_or_email" }

/-- Embedding of `decodeCreatePasswordRequest` (tags `json:"token"`,
`json:"new_password"`); this decoder has no log line. -/
def decodeCreatePasswordRequest (r : Request) : Result createPasswordRequest :=
  let vars := Vars r
  let (id, err) := ParseInt (vars "id")
  if err ≠ none then .err .ErrInvalidRequest
  else
    match Decode ["token", "new_password"] r.body with
    | .error e => .err (.decode e)
    | .ok body => .ok { ID := id, Token := body "token", NewPassword := body "new_password" }

/-- Embedding of `decodeUpdatePasswordEndpoint`: the fields of its body struct carry
no tag, so their JSON names are the Go names `Password` and `NewPassword`. -/
def decodeUpdatePasswordEndpoint (r : Request) : Result updatePasswordRequest :=
  let vars := Vars r
  let (id, err) := ParseInt (vars "id")
  if err ≠ none then .err .ErrInvalidRequest
  else
    match Decode ["Password", "NewPassword"] r.body with
    | .error e => .err (.decode e)
    | .ok body => .ok { ID := id, Password := body "Password", NewPassword := body "NewPassword" }

/-! ## Vocabulary of the claims -/

/-- A member value that `null.String` accepts: a JSON string or `null`. -/
def JSON.isStringOrNull : JSON → Bool
  | .null => true
  | .string _ => true
  | _ => false

/-- Whether a member value is the JSON literal `null`. -/
def JSON.isNull : JSON → Bool
  | .null => true
  | _ => false

/-- Whether the object key `key` addresses one of the listed fields (up to case). -/
def addresses (fields : List String) (key : String) : Bool :=
  fields.any fun f => equalFold f key

/-- A well-formed body for a struct with the given field names: a JSON object in
which every member addressed to one of the fields is a string or `null`. -/
def wellFormed (fields : List String) : Body → Bool
  | .value (.object members) =>
    members.all fun kv => !addresses fields kv.1 || kv.2.isStringOrNull
  | _ => false

/-- The value an object gives for the field `name`: that of the last member
addressed to it, `none` when the object has no such member. -/
def lastMember (name : String) (members : List (String × JSON)) : Option JSON :=
  (List.getLast? (members.filter fun kv => equalFold name kv.1)).map Prod.snd

/-- The string an object supplies for the field `name`, if it supplies one: `none`
both when the key is absent and when its value is `null`. -/
def suppliedString (name : String) (members : List (String × JSON)) : Option String :=
  match lastMember name members with
  | some (.string s) => some s
  | _ => none

/-- The `null.String` that corresponds to `suppliedString`. -/
def fieldOf (name : String) (members : List (String × JSON)) : NullString :=
  match suppliedString name members with
  | some s => ⟨s, true⟩
  | none => ⟨"", false⟩

/-- The number a list of decimal digits denotes on top of the leading value `n`. -/
def decimalFrom (n : Nat) (ds : List Char) : Nat :=
  ds.foldl (fun acc c => 10 * acc + (c.toNat - '0'.toNat)) n

/-- Whether a character is one of the ASCII digits `0` to `9`. -/
def isDecimalDigit (c : Char) : Bool :=
  decide ('0'.toNat ≤ c.toNat ∧ c.toNat ≤ '9'.toNat)

/-- The integer a string denotes as a base-10 signed 64-bit integer, in the words of
the spec and independently of `ParseInt`: an optional sign `+` or `-`, then at least one
ASCII digit and nothing else, with a value between `-2^63` and `2^63 - 1`. -/
def int64Literal (s : String) : Option Int :=
  match s.data with
  | [] => none
  | c :: cs =>
    let ds := if c = '+' ∨ c = '-' then cs else c :: cs
    if ds ≠ [] ∧ ds.all isDecimalDigit = true then
      let v : Int := if c = '-' then -(decimalFrom 0 ds : Int) else (decimalFrom 0 ds : Int)
      if -(2 : Int) ^ 63 ≤ v ∧ v ≤ 2 ^ 63 - 1 then some v else none
    else none

/-- The part of `ParseInt` after the call of `ParseUint`, as a function of the sign and
of the pair `ParseUint` returned. -/
def parseIntFinish (neg : Bool) (res : Nat × Option NumError) : Int × Option NumError :=
  let (un, err) := res
  if err.isSome ∧ err ≠ some .ErrRange then (0, err)
  else
    let cutoff : Nat := 2 ^ 63
    if neg = false ∧ un ≥ cutoff then ((cutoff : Int) - 1, some .ErrRange)
    else if neg = true ∧ un > cutoff then (-(cutoff : Int), some .ErrRange)
    else
      let n := toInt64 un
      (if neg then negInt64 n else n, none)

/-- Field names that stay different after case folding. -/
def foldDistinct (fields : List String) : Prop :=
  ∀ a ∈ fields, ∀ b ∈ fields, foldName a = foldName b → a = b

instance (fields : List String) : Decidable (foldDistinct fields) :=
  inferInstanceAs (Decidable (∀ a ∈ fields, ∀ b ∈ fields, foldName a = foldName b → a = b))

/-- The `null.String` a string-or-null member value decodes to. -/
def toNull : JSON → NullString
  | .string s => ⟨s, true⟩
  | _ => ⟨"", false⟩

/-- The part of `decodePatchUserRequest` after the body is decoded, as a function of
the identifier and the three decoded fields. -/
def patchOf (id : Int) (name password email : NullString) : Result patchUserRequest :=
  let req : patchUserRequest := [("id", .int64 id)]
  let req := if name.Valid then req.set "name" (.string name.String) else req
  let req := if password.Valid then req.set "password" (.string password.String) else req
  let req := if email.Valid then req.set "email" (.string email.String) else req
  if req.len < 2 then .err .ErrInvalidRequest else .ok req

/-! ## Lemmas on strconv -/

theorem digitVal_of_digit {c : Char} (h : isDecimalDigit c = true) :
    digitVal c = some (c.toNat - '0'.toNat) ∧ c.toNat - '0'.toNat < 10 := by
  simp only [isDecimalDigit, decide_eq_true_eq] at h
  have h0 : '0'.toNat = 48 := by decide
  have h9 : '9'.toNat = 57 := by decide
  rw [h0, h9] at h
  unfold digitVal
  rw [h0, h9, if_pos h]
  exact ⟨rfl, by omega⟩

theorem digitVal_of_not_digit {c : Char} (h : isDecimalDigit c = false) :
    digitVal c = none ∨ ∃ d, digitVal c = some d ∧ 10 ≤ d := by
  simp only [isDecimalDigit, decide_eq_false_iff_not] at h
  unfold digitVal
  rw [if_neg h]
  split
  · exact Or.inr ⟨_, rfl, by omega⟩
  · exact Or.inl rfl

theorem le_decimalFrom (n : Nat) (ds : List Char) : n ≤ decimalFrom n ds := by
  induction ds generalizing n with
  | nil => exact Nat.le_refl _
  | cons c cs ih =>
    have := ih (10 * n + (c.toNat - '0'.toNat))
    simp only [decimalFrom, List.foldl_cons] at this ⊢
    omega

theorem parseUintLoop_digits (ds : List Char) (n : Nat)
    (hd : ds.all isDecimalDigit = true) (hn : n ≤ maxUint64) :
    parseUintLoop ds n =
      if decimalFrom n ds ≤ maxUint64 then (decimalFrom n ds, none)
      else (maxUint64, some .ErrRange) := by
  induction ds generalizing n with
  | nil => simp [parseUintLoop, decimalFrom, hn]
  | cons c cs ih =>
    simp only [List.all_cons, Bool.and_eq_true] at hd
    obtain ⟨hv, hlt⟩ := digitVal_of_digit hd.1
    have hmono := le_decimalFrom (10 * n + (c.toNat - '0'.toNat)) cs
    have hstep : decimalFrom n (c :: cs) = decimalFrom (10 * n + (c.toNat - '0'.toNat)) cs := rfl
    have hmax : maxUint64 = 18446744073709551615 := by decide
    unfold parseUintLoop
    rw [hv, hstep]
    generalize c.toNat - '0'.toNat = d at hlt hmono ⊢
    simp only [hmax] at hn hmono ih ⊢
    have hd10 : ¬ d ≥ 10 := by omega
    simp only [hd10, if_false]
    by_cases hc : n ≥ 18446744073709551615 / 10 + 1
    · have : ¬ decimalFrom (10 * n + d) cs ≤ 18446744073709551615 := by omega
      simp only [hc, if_true, this, if_false]
    · simp only [hc, if_false]
      by_cases ho : n * 10 + d < 2 ^ 64
      · have hmod : (n * 10 + d) % 2 ^ 64 = 10 * n + d := by
          rw [Nat.mod_eq_of_lt ho]; omega
        have h1 : ¬ (10 * n + d < n * 10 ∨ 10 * n + d > 18446744073709551615) := by omega
        simp only [hmod, h1, if_false]
        exact ih _ hd.2 (by omega)
      · have hmod : (n * 10 + d) % 2 ^ 64 = n * 10 + d - 2 ^ 64 := by
          rw [Nat.mod_eq_sub_mod (by omega), Nat.mod_eq_of_lt (by omega)]
        have h1 : (n * 10 + d - 2 ^ 64 < n * 10 ∨
            n * 10 + d - 2 ^ 64 > 18446744073709551615) := by omega
        have : ¬ decimalFrom (10 * n + d) cs ≤ 18446744073709551615 := by omega
        simp only [hmod, h1, if_true, this, if_false]

theorem parseUintLoop_not_digits (ds : List Char) (n : Nat)
    (hd : ds.all isDecimalDigit = false) :
    parseUintLoop ds n = (0, some .ErrSyntax) ∨
      parseUintLoop ds n = (maxUint64, some .ErrRange) := by
  induction ds generalizing n with
  | nil => simp at hd
  | cons c cs ih =>
    unfold parseUintLoop
    cases hc : isDecimalDigit c with
    | false =>
      rcases digitVal_of_not_digit hc with h | ⟨d, h, hd10⟩
      · simp [h]
      · simp [h, hd10]
    | true =>
      have hcs : cs.all isDecimalDigit = false := by
        simpa [List.all_cons, hc] using hd
      obtain ⟨hv, hlt⟩ := digitVal_of_digit hc
      rw [hv]
      simp only [ge_iff_le, Nat.not_le.2 hlt, if_false]
      split
      · exact Or.inr rfl
      · split
        · exact Or.inr rfl
        · exact ih _ hcs

theorem ParseUint_cases (ds : List Char) :
    (ds ≠ [] ∧ ds.all isDecimalDigit = true ∧ decimalFrom 0 ds ≤ maxUint64 ∧
      ParseUint ds = (decimalFrom 0 ds, none)) ∨
    (ds ≠ [] ∧ ds.all isDecimalDigit = true ∧ maxUint64 < decimalFrom 0 ds ∧
      ParseUint ds = (maxUint64, some .ErrRange)) ∨
    (¬ (ds ≠ [] ∧ ds.all isDecimalDigit = true) ∧
      (ParseUint ds = (0, some .ErrSyntax) ∨ ParseUint ds = (maxUint64, some .ErrRange))) := by
  by_cases hnil : ds = []
  · right; right
    exact ⟨by simp [hnil], Or.inl (by simp [ParseUint, hnil])⟩
  · have hPU : ParseUint ds = parseUintLoop ds 0 := by simp [ParseUint, hnil]
    cases hd : ds.all isDecimalDigit with
    | false =>
      right; right
      rw [hPU]
      exact ⟨by simp, parseUintLoop_not_digits ds 0 hd⟩
    | true =>
      have h := parseUintLoop_digits ds 0 hd (Nat.zero_le _)
      by_cases hle : decimalFrom 0 ds ≤ maxUint64
      · left
        rw [if_pos hle] at h
        exact ⟨hnil, rfl, hle, hPU.trans h⟩
      · right; left
        rw [if_neg hle] at h
        exact ⟨hnil, rfl, Nat.lt_of_not_le hle, hPU.trans h⟩

theorem ParseInt_cons {s : String} {c : Char} {cs : List Char} (hdata : s.data = c :: cs) :
    ParseInt s =
      parseIntFinish (decide (c = '-')) (ParseUint (if c = '+' ∨ c = '-' then cs else c :: cs)) := by
  unfold ParseInt parseIntFinish
  rw [hdata]

theorem parseIntFinish_syntax (neg : Bool) :
    parseIntFinish neg (0, some .ErrSyntax) = (0, some .ErrSyntax) := by
  simp [parseIntFinish]

theorem parseIntFinish_range (neg : Bool) :
    (parseIntFinish neg (maxUint64, some .ErrRange)).2 ≠ none := by
  cases neg <;> simp [parseIntFinish, maxUint64]

theorem parseIntFinish_pos (val : Nat) :
    parseIntFinish false (val, none) =
      if val < 2 ^ 63 then ((val : Int), none) else (2 ^ 63 - 1, some .ErrRange) := by
  simp only [parseIntFinish, Option.isSome_none, Bool.false_eq_true, false_and, if_false]
  by_cases h : val < 2 ^ 63
  · have h1 : ¬ (True ∧ val ≥ 2 ^ 63) := by omega
    have h2 : val % 2 ^ 64 < 2 ^ 63 := by omega
    have h3 : val % 2 ^ 64 = val := Nat.mod_eq_of_lt (by omega)
    rw [if_pos h, if_neg h1]
    simp only [toInt64]
    rw [if_pos h2, h3]
  · have h1 : True ∧ val ≥ 2 ^ 63 := ⟨trivial, by omega⟩
    rw [if_neg h, if_pos h1]
    norm_num

theorem parseIntFinish_neg (val : Nat) (hval : val ≤ maxUint64) :
    parseIntFinish true (val, none) =
      if val ≤ 2 ^ 63 then (-(val : Int), none) else (-(2 ^ 63), some .ErrRange) := by
  have hmax : maxUint64 = 18446744073709551615 := by decide
  rw [hmax] at hval
  simp only [parseIntFinish, Option.isSome_none, Bool.false_eq_true, false_and, if_false,
    if_true]
  have hf : ¬ (true = false ∧ val ≥ 2 ^ 63) := by simp
  rw [if_neg hf]
  by_cases h : val ≤ 2 ^ 63
  · have h1 : ¬ (True ∧ val > 2 ^ 63) := by omega
    have h3 : val % 2 ^ 64 = val := Nat.mod_eq_of_lt (by omega)
    rw [if_pos h, if_neg h1]
    simp only [toInt64, h3, negInt64]
    by_cases h4 : val < 2 ^ 63
    · have h5 : ¬ ((val : Int) = -(2 ^ 63)) := by omega
      rw [if_pos h4, if_neg h5]
    · have h6 : val = 2 ^ 63 := by omega
      subst h6
      decide
  · have h1 : True ∧ val > 2 ^ 63 := ⟨trivial, by omega⟩
    rw [if_neg h, if_pos h1]
    norm_num

theorem ParseInt_spec (s : String) :
    match int64Literal s with
    | some v => ParseInt s = (v, none)
    | none => (ParseInt s).2 ≠ none := by
  cases hdata : s.data with
  | nil => simp [int64Literal, ParseInt, hdata]
  | cons c cs =>
    rw [ParseInt_cons hdata]
    unfold int64Literal
    rw [hdata]
    simp only []
    generalize (if c = '+' ∨ c = '-' then cs else c :: cs) = ds
    rcases ParseUint_cases ds with ⟨h1, h2, h3, h4⟩ | ⟨h1, h2, h3, h4⟩ | ⟨h1, h4 | h4⟩
    · rw [h4, if_pos ⟨h1, h2⟩]
      generalize decimalFrom 0 ds = val at h3 ⊢
      by_cases hneg : c = '-'
      · simp only [hneg, if_true, decide_True]
        rw [parseIntFinish_neg val h3]
        by_cases hr : val ≤ 2 ^ 63
        · have hin : -(2 : Int) ^ 63 ≤ -(val : Int) ∧ -(val : Int) ≤ 2 ^ 63 - 1 := by
            constructor <;> omega
          rw [if_pos hin, if_pos hr]
        · have hin : ¬ (-(2 : Int) ^ 63 ≤ -(val : Int) ∧ -(val : Int) ≤ 2 ^ 63 - 1) := by
            omega
          rw [if_neg hin, if_neg hr]
          simp
      · simp only [hneg, if_false, decide_False]
        rw [parseIntFinish_pos val]
        by_cases hr : val < 2 ^ 63
        · have hin : -(2 : Int) ^ 63 ≤ (val : Int) ∧ (val : Int) ≤ 2 ^ 63 - 1 := by
            constructor <;> omega
          rw [if_pos hin, if_pos hr]
        · have hin : ¬ (-(2 : Int) ^ 63 ≤ (val : Int) ∧ (val : Int) ≤ 2 ^ 63 - 1) := by
            omega
          rw [if_neg hin, if_neg hr]
          simp
    · have hmax : maxUint64 = 18446744073709551615 := by decide
      rw [h4, if_pos ⟨h1, h2⟩]
      rw [hmax] at h3
      have hin : ¬ ((-(2 : Int) ^ 63 ≤ if c = '-' then -(decimalFrom 0 ds : Int)
            else (decimalFrom 0 ds : Int)) ∧
          (if c = '-' then -(decimalFrom 0 ds : Int) else (decimalFrom 0 ds : Int))
            ≤ 2 ^ 63 - 1) := by
        split <;> omega
      rw [if_neg hin]
      exact parseIntFinish_range _
    · rw [h4, if_neg h1, parseIntFinish_syntax]
      simp
    · rw [h4, if_neg h1]
      exact parseIntFinish_range _

theorem ParseInt_of_literal {s : String} {v : Int} (h : int64Literal s = some v) :
    ParseInt s = (v, none) := by
  have := ParseInt_spec s
  rwa [h] at this

theorem ParseInt_err_of_not_literal {s : String} (h : int64Literal s = none) :
    (ParseInt s).2 ≠ none := by
  have := ParseInt_spec s
  rwa [h] at this

/-! ## Lemmas on the field search -/

theorem equalFold_iff (a b : String) : equalFold a b = true ↔ foldName a = foldName b := by
  simp [equalFold]

theorem findFieldLoop_some {key : String} {l : List String} {acc : Option String} {f : String}
    (h : findFieldLoop key l acc = some f) :
    (f ∈ l ∧ foldName f = foldName key) ∨ acc = some f := by
  induction l generalizing acc with
  | nil => right; simpa [findFieldLoop] using h
  | cons ff rest ih =>
    unfold findFieldLoop at h
    split at h
    · rename_i heq
      left
      simp only [Option.some.injEq] at h
      subst h; subst heq
      exact ⟨List.mem_cons_self _ _, rfl⟩
    · rcases ih h with ⟨hm, hf⟩ | hacc
      · exact Or.inl ⟨List.mem_cons_of_mem _ hm, hf⟩
      · split at hacc
        · rename_i hc
          simp only [Option.some.injEq] at hacc
          subst hacc
          exact Or.inl ⟨List.mem_cons_self _ _, (equalFold_iff _ _).1 hc.2⟩
        · exact Or.inr hacc

theorem findFieldLoop_none {key : String} {l : List String} {acc : Option String}
    (h : findFieldLoop key l acc = none) :
    acc = none ∧ ∀ f ∈ l, foldName f ≠ foldName key := by
  induction l generalizing acc with
  | nil => exact ⟨by simpa [findFieldLoop] using h, by simp⟩
  | cons ff rest ih =>
    unfold findFieldLoop at h
    split at h
    · simp at h
    · obtain ⟨hacc, hrest⟩ := ih h
      split at hacc
      · simp at hacc
      · rename_i hc
        refine ⟨hacc, ?_⟩
        intro f hf
        rcases List.mem_cons.1 hf with rfl | hf
        · intro hfold
          exact hc ⟨by simp [hacc], (equalFold_iff _ _).2 hfold⟩
        · exact hrest f hf

theorem findField_some {fields : List String} {key f : String}
    (h : findField fields key = some f) : f ∈ fields ∧ foldName f = foldName key := by
  rcases findFieldLoop_some h with h1 | h1
  · exact h1
  · simp at h1

theorem findField_none {fields : List String} {key : String}
    (h : findField fields key = none) : ∀ f ∈ fields, foldName f ≠ foldName key :=
  (findFieldLoop_none h).2

theorem findField_of_mem {fields : List String} (hd : foldDistinct fields) {key f : String}
    (hf : f ∈ fields) (hfold : foldName f = foldName key) : findField fields key = some f := by
  cases hres : findField fields key with
  | none => exact absurd hfold (findField_none hres f hf)
  | some g =>
    obtain ⟨hg, hgf⟩ := findField_some hres
    rw [hd g hg f hf (hgf.trans hfold.symm)]

theorem addresses_iff (fields : List String) (key : String) :
    addresses fields key = true ↔ ∃ f ∈ fields, foldName f = foldName key := by
  simp [addresses, equalFold_iff]

theorem addresses_of_findField {fields : List String} {key f : String}
    (h : findField fields key = some f) : addresses fields key = true :=
  (addresses_iff _ _).2 ⟨f, findField_some h⟩

/-! ## Lemmas on the body decoder -/

theorem UnmarshalJSON_of_isStringOrNull {v : JSON} (h : v.isStringOrNull = true) :
    NullString.UnmarshalJSON v = .ok (toNull v) := by
  cases v <;> simp_all [JSON.isStringOrNull, NullString.UnmarshalJSON, toNull]

theorem getLast?_cons_orElse {α : Type} (x : α) (L : List α) :
    (x :: L).getLast? = (L.getLast?).orElse fun _ => some x := by
  cases L with
  | nil => rfl
  | cons a l =>
    rw [List.getLast?_cons_cons]
    cases h : (a :: l).getLast? with
    | none => simp at h
    | some y => rfl

theorem lastMember_cons (f k : String) (v : JSON) (rest : List (String × JSON)) :
    lastMember f ((k, v) :: rest) =
      (lastMember f rest).orElse fun _ => if equalFold f k then some v else none := by
  unfold lastMember
  generalize hL : List.filter (fun kv => equalFold f kv.1) rest = L
  by_cases h : equalFold f k = true
  · simp only [List.filter_cons, h, if_true, hL]
    rw [getLast?_cons_orElse]
    cases L.getLast? <;> rfl
  · have h' : equalFold f k = false := by simpa using h
    simp only [List.filter_cons, h', hL, Bool.false_eq_true, if_false]
    cases L.getLast? <;> rfl

theorem fieldOf_eq (f : String) (members : List (String × JSON)) :
    fieldOf f members = ((lastMember f members).map toNull).getD NullString.zero := by
  unfold fieldOf suppliedString
  cases h : lastMember f members with
  | none => simp [NullString.zero]
  | some v => cases v <;> simp [toNull, NullString.zero]

theorem decodeObject_spec {fields : List String} (hd : foldDistinct fields)
    (members : List (String × JSON)) (st : Struct)
    (hw : ∀ kv ∈ members, addresses fields kv.1 = true → kv.2.isStringOrNull = true) :
    ∃ st', decodeObject fields members st = .ok st' ∧
      ∀ f ∈ fields, st' f = ((lastMember f members).map toNull).getD (st f) := by
  induction members generalizing st with
  | nil => exact ⟨st, rfl, by simp [lastMember]⟩
  | cons kv rest ih =>
    obtain ⟨k, v⟩ := kv
    have hrest : ∀ kv ∈ rest, addresses fields kv.1 = true → kv.2.isStringOrNull = true :=
      fun kv hkv => hw kv (List.mem_cons_of_mem _ hkv)
    unfold decodeObject
    cases hfind : findField fields k with
    | none =>
      obtain ⟨st', hdec, hval⟩ := ih st hrest
      refine ⟨st', by simpa using hdec, ?_⟩
      intro f hf
      have hne : equalFold f k = false := by
        have := findField_none hfind f hf
        simpa [equalFold] using this
      rw [hval f hf, lastMember_cons, hne]
      cases lastMember f rest <;> simp
    | some g =>
      have hv : v.isStringOrNull = true :=
        hw (k, v) (List.mem_cons_self _ _) (addresses_of_findField hfind)
      obtain ⟨st', hdec, hval⟩ := ih (st.set g (toNull v)) hrest
      refine ⟨st', by simpa [UnmarshalJSON_of_isStringOrNull hv] using hdec, ?_⟩
      intro f hf
      obtain ⟨hg, hgk⟩ := findField_some hfind
      rw [hval f hf, lastMember_cons]
      by_cases hfg : f = g
      · subst hfg
        have he : equalFold f k = true := (equalFold_iff _ _).2 hgk
        cases lastMember f rest <;> simp [he, Struct.set]
      · have hne : equalFold f k = false := by
          cases hc : equalFold f k with
          | false => rfl
          | true =>
            exact absurd (hd f hf g hg (((equalFold_iff _ _).1 hc).trans hgk.symm)) hfg
        cases lastMember f rest <;> simp [hne, Struct.set, hfg]


theorem Decode_spec {fields : List String} (hd : foldDistinct fields)
    (members : List (String × JSON))
    (hw : wellFormed fields (.value (.object members)) = true) :
    ∃ st, Decode fields (.value (.object members)) = .ok st ∧
      ∀ f ∈ fields, st f = fieldOf f members := by
  have hw' : ∀ kv ∈ members, addresses fields kv.1 = true → kv.2.isStringOrNull = true := by
    intro kv hkv ha
    have := (List.all_eq_true.1 hw) kv hkv
    simpa [ha] using this
  obtain ⟨st, hdec, hval⟩ := decodeObject_spec hd members Struct.zero hw'
  refine ⟨st, hdec, ?_⟩
  intro f hf
  rw [hval f hf, fieldOf_eq]
  rfl

theorem addresses_congr (S : List String) {k k' : String} (h : foldName k = foldName k') :
    addresses S k = addresses S k' := by
  simp [addresses, equalFold, h]

theorem Struct.set_same (st : Struct) (g : String) : st.set g (st g) = st := by
  funext n
  by_cases h : n = g <;> simp [Struct.set, h]

theorem decodeObject_filter_null (fields S : List String) (members : List (String × JSON))
    (st : Struct)
    (hnull : ∀ kv ∈ members, addresses S kv.1 = true → kv.2 = JSON.null)
    (hinv : ∀ k g, addresses S k = true → findField fields k = some g → st g = NullString.zero) :
    decodeObject fields (members.filter fun kv => !addresses S kv.1) st =
      decodeObject fields members st := by
  induction members generalizing st with
  | nil => rfl
  | cons kv rest ih =>
    obtain ⟨k, v⟩ := kv
    have hrest : ∀ kv ∈ rest, addresses S kv.1 = true → kv.2 = JSON.null :=
      fun kv hkv => hnull kv (List.mem_cons_of_mem _ hkv)
    by_cases hk : addresses S k = true
    · have hv : v = JSON.null := hnull (k, v) (List.mem_cons_self _ _) hk
      subst hv
      rw [List.filter_cons]
      simp only [hk, Bool.not_true, Bool.false_eq_true, if_false]
      rw [ih st hrest hinv]
      conv_rhs => unfold decodeObject
      cases hfind : findField fields k with
      | none => rfl
      | some g =>
        have hz : st g = NullString.zero := hinv k g hk hfind
        have : st.set g ⟨"", false⟩ = st := by
          have := Struct.set_same st g
          rwa [hz] at this
        simp [NullString.UnmarshalJSON, this]
    · have hk' : addresses S k = false := by simpa using hk
      rw [List.filter_cons]
      simp only [hk', Bool.not_false, if_true]
      unfold decodeObject
      cases hfind : findField fields k with
      | none => exact ih st hrest hinv
      | some g =>
        cases hu : NullString.UnmarshalJSON v with
        | error e => rfl
        | ok ns =>
          refine ih (st.set g ns) hrest ?_
          intro k' g' hk1 hf1
          have hne : g' ≠ g := by
            intro heq
            subst heq
            have h1 := (findField_some hf1).2
            have h2 := (findField_some hfind).2
            have := addresses_congr S (h1.symm.trans h2)
            rw [hk1, hk'] at this
            exact Bool.noConfusion this
          simp only [Struct.set, hne, if_false]
          exact hinv k' g' hk1 hf1

theorem Decode_filter_null (fields S : List String) (members : List (String × JSON))
    (hnull : ∀ kv ∈ members, addresses S kv.1 = true → kv.2 = JSON.null) :
    Decode fields (.value (.object (members.filter fun kv => !addresses S kv.1))) =
      Decode fields (.value (.object members)) :=
  decodeObject_filter_null fields S members Struct.zero hnull (fun _ _ _ _ => rfl)

theorem decodePatch_of_decode (r : Request) (id : Int) (st : Struct)
    (h : ParseInt (Vars r "id") = (id, none)) (hid : 1 ≤ id)
    (hdec : Decode userFields r.body = .ok st) :
    decodePatchUserRequest r = patchOf id (st "name") (st "password") (st "email") := by
  have hid' : ¬ id ≤ 0 := by omega
  unfold decodePatchUserRequest patchOf
  simp [h, hid', hdec]

theorem patchOf_fieldOf (id : Int) (members : List (String × JSON)) :
    patchOf id (fieldOf "name" members) (fieldOf "password" members) (fieldOf "email" members) =
      if (userFields.filter fun f => (suppliedString f members).isSome) = [] then
        .err .ErrInvalidRequest
      else .ok (("id", Value.int64 id) ::
        (userFields.filter fun f => (suppliedString f members).isSome).filterMap fun f =>
          (suppliedString f members).map fun s => (f, Value.string s)) := by
  unfold patchOf fieldOf userFields
  cases h1 : suppliedString "name" members <;> cases h2 : suppliedString "password" members <;>
    cases h3 : suppliedString "email" members <;>
    simp [patchUserRequest.set, patchUserRequest.len, List.filter_cons, List.filterMap_cons,
      h1, h2, h3]

theorem JSON.eq_null_of_isNull {v : JSON} (h : v.isNull = true) : v = JSON.null := by
  cases v <;> simp_all [JSON.isNull]

theorem suppliedString_none_of_null (f : String) (members : List (String × JSON))
    (h : ∀ kv ∈ members, equalFold f kv.1 = true → kv.2.isNull = true) :
    suppliedString f members = none := by
  unfold suppliedString
  cases hl : lastMember f members with
  | none => rfl
  | some v =>
    unfold lastMember at hl
    obtain ⟨kv, hkv, hv⟩ := Option.map_eq_some'.1 hl
    have hmem := List.mem_of_getLast?_eq_some hkv
    obtain ⟨hm, he⟩ := List.mem_filter.1 hmem
    have := JSON.eq_null_of_isNull (h kv hm he)
    rw [hv] at this
    subst this
    rfl

theorem equalFold_self (f : String) : equalFold f f = true := by
  simp [equalFold]

theorem lastMember_absent (f : String) (members : List (String × JSON))
    (habs : ∀ kv ∈ members, equalFold f kv.1 = false) : lastMember f members = none := by
  unfold lastMember
  have : members.filter (fun kv => equalFold f kv.1) = [] := by
    apply List.filter_eq_nil_iff.2
    intro kv hkv
    simp [habs kv hkv]
  rw [this]
  rfl

theorem lastMember_insert_self (f : String) (v : JSON) (pre post : List (String × JSON))
    (habs : ∀ kv ∈ pre ++ post, equalFold f kv.1 = false) :
    lastMember f (pre ++ (f, v) :: post) = some v := by
  unfold lastMember
  have h1 : pre.filter (fun kv => equalFold f kv.1) = [] := by
    apply List.filter_eq_nil_iff.2
    intro kv hkv
    simp [habs kv (List.mem_append_left _ hkv)]
  have h2 : post.filter (fun kv => equalFold f kv.1) = [] := by
    apply List.filter_eq_nil_iff.2
    intro kv hkv
    simp [habs kv (List.mem_append_right _ hkv)]
  rw [List.filter_append, List.filter_cons, h1, h2]
  simp [equalFold_self]

theorem wellFormed_object {fields : List String} {b : Body} (h : wellFormed fields b = true) :
    ∃ members, b = .value (.object members) := by
  cases b with
  | malformed msg => simp [wellFormed] at h
  | value j => cases j <;> simp_all [wellFormed]

theorem wellFormed_insert {fields : List String} {pre post : List (String × JSON)}
    (h : wellFormed fields (.value (.object (pre ++ post))) = true) (k : String) (v : JSON)
    (hv : v.isStringOrNull = true) :
    wellFormed fields (.value (.object (pre ++ (k, v) :: post))) = true := by
  simp only [wellFormed, List.all_append, List.all_cons, Bool.and_eq_true] at h ⊢
  exact ⟨h.1, by simp [hv], h.2⟩

theorem decodeCreateUser_of_wellFormed (vars : List (String × String))
    (members : List (String × JSON))
    (hw : wellFormed userFields (.value (.object members)) = true) :
    decodeCreateUserRequest ⟨vars, .value (.object members)⟩ =
      .ok ⟨fieldOf "name" members, fieldOf "password" members, fieldOf "email" members⟩ := by
  obtain ⟨st, hdec, hval⟩ := Decode_spec (by decide) members hw
  unfold decodeCreateUserRequest
  simp only [hdec]
  rw [hval "name" (by decide), hval "password" (by decide), hval "email" (by decide)]

theorem decodeCreatePassword_of_wellFormed (r : Request) (id : Int)
    (members : List (String × JSON))
    (hparse : ParseInt (Vars r "id") = (id, none))
    (hbody : r.body = .value (.object members))
    (hw : wellFormed ["token", "new_password"] r.body = true) :
    decodeCreatePasswordRequest r =
      .ok ⟨id, fieldOf "token" members, fieldOf "new_password" members⟩ := by
  rw [hbody] at hw
  obtain ⟨st, hdec, hval⟩ := Decode_spec (by decide) members hw
  rw [← hbody] at hdec
  unfold decodeCreatePasswordRequest
  simp only [hparse, hdec, ne_eq, not_true_eq_false, if_false]
  rw [hval "token" (by decide), hval "new_password" (by decide)]

theorem decodeUpdatePassword_of_wellFormed (r : Request) (id : Int)
    (members : List (String × JSON))
    (hparse : ParseInt (Vars r "id") = (id, none))
    (hbody : r.body = .value (.object members))
    (hw : wellFormed ["Password", "NewPassword"] r.body = true) :
    decodeUpdatePasswordEndpoint r =
      .ok ⟨id, fieldOf "Password" members, fieldOf "NewPassword" members⟩ := by
  rw [hbody] at hw
  obtain ⟨st, hdec, hval⟩ := Decode_spec (by decide) members hw
  rw [← hbody] at hdec
  unfold decodeUpdatePasswordEndpoint
  simp only [hparse, hdec, ne_eq, not_true_eq_false, if_false]
  rw [hval "Password" (by decide), hval "NewPassword" (by decide)]

theorem fieldOf_of_supplied {f : String} {members : List (String × JSON)} {s : String}
    (h : suppliedString f members = some s) : fieldOf f members = ⟨s, true⟩ := by
  simp [fieldOf, h]

theorem fieldOf_of_absent {f : String} {members : List (String × JSON)}
    (h : lastMember f members = none) : fieldOf f members = ⟨"", false⟩ := by
  simp [fieldOf, suppliedString, h]

theorem lastMember_congr {a b : String} (h : foldName a = foldName b)
    (members : List (String × JSON)) : lastMember a members = lastMember b members := by
  unfold lastMember
  have : (fun kv : String × JSON => equalFold a kv.1) = fun kv => equalFold b kv.1 := by
    funext kv
    simp [equalFold, h]
  rw [this]

theorem fieldOf_congr {a b : String} (h : foldName a = foldName b)
    (members : List (String × JSON)) : fieldOf a members = fieldOf b members := by
  unfold fieldOf suppliedString
  rw [lastMember_congr h]

theorem decodeUpdateUser_of_decode (r : Request) (id : Int) (st : Struct)
    (hparse : ParseInt (Vars r "id") = (id, none))
    (hdec : Decode userFields r.body = .ok st) :
    decodeUpdateUserRequest r = .ok ⟨id, st "name", st "password", st "email"⟩ := by
  unfold decodeUpdateUserRequest
  simp only [hparse, hdec, ne_eq, not_true_eq_false, if_false]

theorem int64Literal_of_ParseInt {s : String} {v : Int} (h : ParseInt s = (v, none)) :
    int64Literal s = some v := by
  have := ParseInt_spec s
  cases hl : int64Literal s with
  | none =>
    rw [hl] at this
    simp [h] at this
  | some w =>
    rw [hl] at this
    simp only [h, Prod.mk.injEq, and_true] at this
    rw [this]

theorem int64Literal_of_digits (s : String) (hne : s.data ≠ [])
    (hdig : s.data.all isDecimalDigit = true) :
    int64Literal s =
      if decimalFrom 0 s.data ≤ 2 ^ 63 - 1 then some (decimalFrom 0 s.data : Int) else none := by
  unfold int64Literal
  cases hdata : s.data with
  | nil => exact absurd hdata hne
  | cons c cs =>
    rw [hdata] at hdig
    have hc : isDecimalDigit c = true := by
      simp only [List.all_cons, Bool.and_eq_true] at hdig
      exact hdig.1
    have hplus : c ≠ '+' := by
      intro h
      rw [h] at hc
      exact absurd hc (by decide)
    have hminus : c ≠ '-' := by
      intro h
      rw [h] at hc
      exact absurd hc (by decide)
    have hsign : ¬ (c = '+' ∨ c = '-') := by
      intro h
      rcases h with h | h
      · exact hplus h
      · exact hminus h
    have hds : (if c = '+' ∨ c = '-' then cs else c :: cs) = c :: cs := if_neg hsign
    simp only [hds]
    simp only [hminus, if_false]
    rw [if_pos ⟨List.cons_ne_nil _ _, hdig⟩]
    by_cases hr : decimalFrom 0 (c :: cs) ≤ 2 ^ 63 - 1
    · have hin : -(2 : Int) ^ 63 ≤ (decimalFrom 0 (c :: cs) : Int) ∧
          (decimalFrom 0 (c :: cs) : Int) ≤ 2 ^ 63 - 1 := by
        constructor <;> omega
      rw [if_pos hin, if_pos hr]
    · have hin : ¬ (-(2 : Int) ^ 63 ≤ (decimalFrom 0 (c :: cs) : Int) ∧
          (decimalFrom 0 (c :: cs) : Int) ≤ 2 ^ 63 - 1) := by
        omega
      rw [if_neg hin, if_neg hr]

theorem idDecoders_of_not_literal (r : Request) (hlit : int64Literal (Vars r "id") = none) :
    decodeUpdateUserRequest r = .err .ErrInvalidRequest ∧
    decodePatchUserRequest r = .err .ErrInvalidRequest ∧
    decodeDeleteUserRequest r = .err .ErrInvalidRequest ∧
    decodeGetUserRequest r = .err .ErrInvalidRequest ∧
    decodeCreatePasswordRequest r = .err .ErrInvalidRequest ∧
    decodeUpdatePasswordEndpoint r = .err .ErrInvalidRequest := by
  unfold decodeUpdateUserRequest decodePatchUserRequest decodeDeleteUserRequest
    decodeGetUserRequest decodeCreatePasswordRequest decodeUpdatePasswordEndpoint
  have h := ParseInt_err_of_not_literal hlit
  cases hp : ParseInt (Vars r "id") with
  | mk id err =>
    rw [hp] at h
    cases err with
    | none => exact absurd rfl h
    | some e => simp [hp, errorString]

theorem patchOf_ne_panic (id : Int) (n p e : NullString) : patchOf id n p e ≠ .panic := by
  unfold patchOf
  dsimp only
  split_ifs <;> simp

theorem patchOf_ok_id {id : Int} {n p e : NullString} {req : patchUserRequest}
    (h : patchOf id n p e = .ok req) : req.get "id" = some (.int64 id) := by
  cases hn : n.Valid <;> cases hp : p.Valid <;> cases he : e.Valid <;>
    simp [patchOf, hn, hp, he, patchUserRequest.set, patchUserRequest.len] at h <;>
    (subst h; simp [patchUserRequest.get])

theorem decodePatch_eq_patchOf (r : Request) (id : Int) (st : Struct)
    (h : ParseInt (Vars r "id") = (id, none)) (hid : ¬ id ≤ 0)
    (hdec : Decode userFields r.body = .ok st) :
    decodePatchUserRequest r = patchOf id (st "name") (st "password") (st "email") :=
  decodePatch_of_decode r id st h (by omega) hdec

theorem decodeUpdateUser_cases (r : Request) :
    decodeUpdateUserRequest r = .err .ErrInvalidRequest ∨
    (∃ e, decodeUpdateUserRequest r = .err (.decode e)) ∨
    ∃ c, decodeUpdateUserRequest r = .ok c ∧ ParseInt (Vars r "id") = (c.ID, none) := by
  unfold decodeUpdateUserRequest
  cases hp : ParseInt (Vars r "id") with
  | mk id err =>
    cases err with
    | some e => left; simp [hp, errorString]
    | none =>
      right
      cases hd : Decode userFields r.body with
      | error e => left; exact ⟨e, by simp [hp, hd]⟩
      | ok st =>
        right
        exact ⟨⟨id, st "name", st "password", st "email"⟩, by simp [hp, hd], rfl⟩

theorem decodeCreatePassword_cases (r : Request) :
    decodeCreatePasswordRequest r = .err .ErrInvalidRequest ∨
    (∃ e, decodeCreatePasswordRequest r = .err (.decode e)) ∨
    ∃ c, decodeCreatePasswordRequest r = .ok c ∧ ParseInt (Vars r "id") = (c.ID, none) := by
  unfold decodeCreatePasswordRequest
  cases hp : ParseInt (Vars r "id") with
  | mk id err =>
    cases err with
    | some e => left; simp [hp]
    | none =>
      right
      cases hd : Decode ["token", "new_password"] r.body with
      | error e => left; exact ⟨e, by simp [hp, hd]⟩
      | ok st =>
        right
        exact ⟨⟨id, st "token", st "new_password"⟩, by simp [hp, hd], rfl⟩

theorem decodeUpdatePassword_cases (r : Request) :
    decodeUpdatePasswordEndpoint r = .err .ErrInvalidRequest ∨
    (∃ e, decodeUpdatePasswordEndpoint r = .err (.decode e)) ∨
    ∃ c, decodeUpdatePasswordEndpoint r = .ok c ∧ ParseInt (Vars r "id") = (c.ID, none) := by
  unfold decodeUpdatePasswordEndpoint
  cases hp : ParseInt (Vars r "id") with
  | mk id err =>
    cases err with
    | some e => left; simp [hp]
    | none =>
      right
      cases hd : Decode ["Password", "NewPassword"] r.body with
      | error e => left; exact ⟨e, by simp [hp, hd]⟩
      | ok st =>
        right
        exact ⟨⟨id, st "Password", st "NewPassword"⟩, by simp [hp, hd], rfl⟩

theorem decodeGetUser_cases (r : Request) :
    decodeGetUserRequest r = .err .ErrInvalidRequest ∨
    ∃ c, decodeGetUserRequest r = .ok c ∧ ParseInt (Vars r "id") = (c.ID, none) := by
  unfold decodeGetUserRequest
  cases hp : ParseInt (Vars r "id") with
  | mk id err =>
    cases err with
    | some e => left; simp [hp, errorString]
    | none => right; exact ⟨⟨id⟩, by simp [hp], rfl⟩

theorem decodeDeleteUser_cases (r : Request) :
    decodeDeleteUserRequest r = .err .ErrInvalidRequest ∨
    (decodeDeleteUserRequest r = .panic ∧ ∃ id, ParseInt (Vars r "id") = (id, none) ∧ id ≤ 0) ∨
    ∃ c, decodeDeleteUserRequest r = .ok c ∧ ParseInt (Vars r "id") = (c.ID, none) ∧
      1 ≤ c.ID := by
  unfold decodeDeleteUserRequest
  cases hp : ParseInt (Vars r "id") with
  | mk id err =>
    cases err with
    | some e => left; simp [hp, errorString]
    | none =>
      right
      by_cases hid : id ≤ 0
      · left; exact ⟨by simp [hp, hid, errorString], id, rfl, hid⟩
      · right; exact ⟨⟨id⟩, by simp [hp, hid], rfl, by show 1 ≤ id; omega⟩

theorem decodePatchUser_cases (r : Request) :
    (∃ e, decodePatchUserRequest r = .err e) ∨
    (decodePatchUserRequest r = .panic ∧ ∃ id, ParseInt (Vars r "id") = (id, none) ∧ id ≤ 0) ∨
    ∃ req id, decodePatchUserRequest r = .ok req ∧ ParseInt (Vars r "id") = (id, none) ∧
      1 ≤ id ∧ req.get "id" = some (.int64 id) := by
  cases hp : ParseInt (Vars r "id") with
  | mk id err =>
    cases err with
    | some e =>
      left
      refine ⟨.ErrInvalidRequest, ?_⟩
      unfold decodePatchUserRequest
      simp [hp, errorString]
    | none =>
      by_cases hid : id ≤ 0
      · right; left
        refine ⟨?_, id, rfl, hid⟩
        unfold decodePatchUserRequest
        simp [hp, hid, errorString]
      · cases hd : Decode userFields r.body with
        | error e =>
          left
          refine ⟨.decode e, ?_⟩
          unfold decodePatchUserRequest
          simp [hp, hid, hd]
        | ok st =>
          have heq := decodePatch_eq_patchOf r id st hp hid hd
          cases hres : patchOf id (st "name") (st "password") (st "email") with
          | err e => left; exact ⟨e, heq.trans hres⟩
          | panic => exact absurd hres (patchOf_ne_panic _ _ _ _)
          | ok req =>
            right; right
            exact ⟨req, id, heq.trans hres, rfl, by omega, patchOf_ok_id hres⟩

theorem decodePatch_ok_of_supplied (r : Request) (id : Int) (members : List (String × JSON))
    (hparse : ParseInt (Vars r "id") = (id, none)) (hid : 1 ≤ id)
    (hbody : r.body = .value (.object members))
    (hw : wellFormed userFields r.body = true)
    (hsup : ∃ f ∈ userFields, (suppliedString f members).isSome = true) :
    decodePatchUserRequest r = .ok (("id", Value.int64 id) ::
      (userFields.filter fun f => (suppliedString f members).isSome).filterMap fun f =>
        (suppliedString f members).map fun s => (f, Value.string s)) := by
  rw [hbody] at hw
  obtain ⟨st, hdec, hval⟩ := Decode_spec (by decide) members hw
  rw [← hbody] at hdec
  rw [decodePatch_of_decode r id st hparse hid hdec,
    hval "name" (by decide), hval "password" (by decide), hval "email" (by decide),
    patchOf_fieldOf]
  obtain ⟨f0, hf0, hs0⟩ := hsup
  have hne : (userFields.filter fun f => (suppliedString f members).isSome) ≠ [] := by
    intro hnil
    have : f0 ∈ userFields.filter fun f => (suppliedString f members).isSome :=
      List.mem_filter.2 ⟨hf0, hs0⟩
    rw [hnil] at this
    exact List.not_mem_nil _ this
  rw [if_neg hne]

/-! ## The claims -/

/-- C1: when the identifier string `mux.Vars(r)["id"]` does not parse as a base-10
signed 64-bit integer (`int64Literal` gives nothing; the empty string of a missing
variable included), each of the six decoders that take an identifier returns
`ErrInvalidRequest` and no request, whatever the body is: the identifier check comes
before the body is decoded. -/
theorem C1_unparsable_id_invalid_request (r : Request)
    (hlit : int64Literal (Vars r "id") = none) :
    decodeUpdateUserRequest r = .err .ErrInvalidRequest ∧
    decodePatchUserRequest r = .err .ErrInvalidRequest ∧
    decodeDeleteUserRequest r = .err .ErrInvalidRequest ∧
    decodeGetUserRequest r = .err .ErrInvalidRequest ∧
    decodeCreatePasswordRequest r = .err .ErrInvalidRequest ∧
    decodeUpdatePasswordEndpoint r = .err .ErrInvalidRequest := by
  unfold decodeUpdateUserRequest decodePatchUserRequest decodeDeleteUserRequest
    decodeGetUserRequest decodeCreatePasswordRequest decodeUpdatePasswordEndpoint
  have h := ParseInt_err_of_not_literal hlit
  cases hp : ParseInt (Vars r "id") with
  | mk id err =>
    rw [hp] at h
    cases err with
    | none => exact absurd rfl h
    | some e => simp [hp, errorString]

/-- Witness of C1: a request with no `id` variable (identifier `""`) and a body that is
not JSON. -/
theorem C1_unparsable_id_invalid_request_witness :
    int64Literal (Vars ⟨[], .malformed "unexpected EOF"⟩ "id") = none ∧
    (decodeUpdateUserRequest ⟨[], .malformed "unexpected EOF"⟩ = .err .ErrInvalidRequest ∧
     decodePatchUserRequest ⟨[], .malformed "unexpected EOF"⟩ = .err .ErrInvalidRequest ∧
     decodeDeleteUserRequest ⟨[], .malformed "unexpected EOF"⟩ = .err .ErrInvalidRequest ∧
     decodeGetUserRequest ⟨[], .malformed "unexpected EOF"⟩ = .err .ErrInvalidRequest ∧
     decodeCreatePasswordRequest ⟨[], .malformed "unexpected EOF"⟩ = .err .ErrInvalidRequest ∧
     decodeUpdatePasswordEndpoint ⟨[], .malformed "unexpected EOF"⟩ = .err .ErrInvalidRequest) :=
  ⟨by decide, C1_unparsable_id_invalid_request ⟨[], .malformed "unexpected EOF"⟩ (by decide)⟩

/-- C2 (the code departs from the claim): when the identifier parses to an integer
`id <= 0`, the guard `err != nil || id <= 0` of `decodePatchUserRequest` and of
`decodeDeleteUserRequest` is entered with `err == nil`, and the log line evaluates
`err.Error()` on that nil error: both decoders panic instead of returning
`ErrInvalidRequest`, whatever the body is. -/
theorem C2_nonpositive_id_panics (r : Request) (id : Int)
    (hlit : int64Literal (Vars r "id") = some id) (hid : id ≤ 0) :
    decodePatchUserRequest r = .panic ∧ decodeDeleteUserRequest r = .panic := by
  have h := ParseInt_of_literal hlit
  unfold decodePatchUserRequest decodeDeleteUserRequest
  simp [h, hid, errorString]

/-- Witness of C2: `DELETE /users/0` and `PATCH /users/0` with the body `{"name":"x"}`. -/
theorem C2_nonpositive_id_panics_witness :
    int64Literal (Vars ⟨[("id", "0")], .value (.object [("name", .string "x")])⟩ "id") = some 0 ∧
    (0 : Int) ≤ 0 ∧
    decodePatchUserRequest ⟨[("id", "0")], .value (.object [("name", .string "x")])⟩ = .panic ∧
    decodeDeleteUserRequest ⟨[("id", "0")], .value (.object [("name", .string "x")])⟩ = .panic :=
  ⟨by decide, by decide,
    C2_nonpositive_id_panics ⟨[("id", "0")], .value (.object [("name", .string "x")])⟩ 0
      (by decide) (by decide)⟩

/-- C3, counterexample: `PUT /users/0` with the body `{}`. The identifier parses to
`0`, and `decodeUpdateUserRequest` returns an `updateUserRequest` with `ID = 0`, not
`ErrInvalidRequest`. -/
theorem C3_update_id_zero_accepted :
    int64Literal "0" = some 0 ∧
    decodeUpdateUserRequest ⟨[("id", "0")], .value (.object [])⟩ =
      .ok ⟨0, ⟨"", false⟩, ⟨"", false⟩, ⟨"", false⟩⟩ ∧
    decodeUpdateUserRequest ⟨[("id", "0")], .value (.object [])⟩ ≠ .err .ErrInvalidRequest := by
  decide

/-- C3, amended: `decodeUpdateUserRequest` checks only that the identifier parses.
For every identifier that parses to an integer `id`, of any sign, it never returns
`ErrInvalidRequest`, and on a well-formed body it returns an `updateUserRequest` with
`ID = id` and the decoded optional fields. -/
theorem C3_update_accepts_every_parsed_id (r : Request) (id : Int)
    (hlit : int64Literal (Vars r "id") = some id) :
    decodeUpdateUserRequest r ≠ .err .ErrInvalidRequest ∧
    ∀ members, r.body = .value (.object members) → wellFormed userFields r.body = true →
      decodeUpdateUserRequest r =
        .ok ⟨id, fieldOf "name" members, fieldOf "password" members, fieldOf "email" members⟩ := by
  have h := ParseInt_of_literal hlit
  unfold decodeUpdateUserRequest
  simp only [h, ne_eq, not_true_eq_false, if_false]
  constructor
  · cases Decode userFields r.body <;> simp
  · intro members hb hw
    rw [hb] at hw ⊢
    obtain ⟨st, hdec, hval⟩ := Decode_spec (by decide) members hw
    rw [hdec]
    simp [hval, userFields]

/-- Witness of C3 (amended): the identifier `-3` with the body `{"name":"n"}`. -/
theorem C3_update_accepts_every_parsed_id_witness :
    int64Literal (Vars ⟨[("id", "-3")], .value (.object [("name", .string "n")])⟩ "id") = some (-3) ∧
    wellFormed userFields (.value (.object [("name", .string "n")])) = true ∧
    decodeUpdateUserRequest ⟨[("id", "-3")], .value (.object [("name", .string "n")])⟩
        ≠ .err .ErrInvalidRequest ∧
    decodeUpdateUserRequest ⟨[("id", "-3")], .value (.object [("name", .string "n")])⟩ =
      .ok ⟨-3, fieldOf "name" [("name", .string "n")], fieldOf "password" [("name", .string "n")],
        fieldOf "email" [("name", .string "n")]⟩ :=
  ⟨by decide, by decide,
    (C3_update_accepts_every_parsed_id
      ⟨[("id", "-3")], .value (.object [("name", .string "n")])⟩ (-3) (by decide)).1,
    (C3_update_accepts_every_parsed_id
      ⟨[("id", "-3")], .value (.object [("name", .string "n")])⟩ (-3) (by decide)).2
      [("name", .string "n")] rfl (by decide)⟩

/-- C4: for a PatchUser request whose identifier parses to `id >= 1` and whose
well-formed body supplies a string for at least one of `name`, `password`, `email`, the
decoder succeeds, and the keys of the map are exactly `"id"` followed by the supplied
fields: `"id"` holds the parsed id, each supplied field holds its string, a field that
is not supplied (absent or `null`) has no key, and no other key exists. -/
theorem C4_patch_map_has_exactly_supplied_fields (r : Request) (id : Int)
    (members : List (String × JSON))
    (hlit : int64Literal (Vars r "id") = some id) (hid : 1 ≤ id)
    (hbody : r.body = .value (.object members))
    (hw : wellFormed userFields r.body = true)
    (hsup : ∃ f ∈ userFields, (suppliedString f members).isSome = true) :
    ∃ req, decodePatchUserRequest r = .ok req ∧
      req.keys = "id" :: userFields.filter (fun f => (suppliedString f members).isSome) ∧
      req.get "id" = some (.int64 id) ∧
      (∀ f ∈ userFields, req.get f = (suppliedString f members).map Value.string) ∧
      (∀ k, k ≠ "id" → k ∉ userFields → req.get k = none) := by
  rw [hbody] at hw
  obtain ⟨st, hdec, hval⟩ := Decode_spec (by decide) members hw
  rw [← hbody] at hdec
  rw [decodePatch_of_decode r id st (ParseInt_of_literal hlit) hid hdec,
    hval "name" (by decide), hval "password" (by decide), hval "email" (by decide),
    patchOf_fieldOf]
  obtain ⟨f0, hf0, hs0⟩ := hsup
  have hne : (userFields.filter fun f => (suppliedString f members).isSome) ≠ [] := by
    intro hnil
    have : f0 ∈ userFields.filter fun f => (suppliedString f members).isSome :=
      List.mem_filter.2 ⟨hf0, hs0⟩
    rw [hnil] at this
    exact List.not_mem_nil _ this
  rw [if_neg hne]
  refine ⟨_, rfl, ?_, ?_, ?_, ?_⟩ <;> unfold userFields <;>
    cases h1 : suppliedString "name" members <;> cases h2 : suppliedString "password" members <;>
    cases h3 : suppliedString "email" members <;>
    simp [patchUserRequest.keys, patchUserRequest.get, List.filter_cons, List.filterMap_cons,
      List.find?_cons, h1, h2, h3]
  all_goals
    intro k hk1 hk2 hk3 hk4
    have e1 : ("id" == k) = false := beq_eq_false_iff_ne.2 (Ne.symm hk1)
    have e2 : ("name" == k) = false := beq_eq_false_iff_ne.2 (Ne.symm hk2)
    have e3 : ("password" == k) = false := beq_eq_false_iff_ne.2 (Ne.symm hk3)
    have e4 : ("email" == k) = false := beq_eq_false_iff_ne.2 (Ne.symm hk4)
    simp only [e1, e2, e3, e4]

/-- Witness of C4: `PATCH /users/42` with the body `{"email": "a@b.com"}`. -/
theorem C4_patch_map_has_exactly_supplied_fields_witness :
    int64Literal (Vars ⟨[("id", "42")], .value (.object [("email", .string "a@b.com")])⟩ "id")
      = some 42 ∧
    wellFormed userFields (.value (.object [("email", .string "a@b.com")])) = true ∧
    ∃ req,
      decodePatchUserRequest ⟨[("id", "42")], .value (.object [("email", .string "a@b.com")])⟩
        = .ok req ∧
      req.keys = "id" :: userFields.filter
        (fun f => (suppliedString f [("email", .string "a@b.com")]).isSome) ∧
      req.get "id" = some (.int64 42) ∧
      (∀ f ∈ userFields,
        req.get f = (suppliedString f [("email", .string "a@b.com")]).map Value.string) ∧
      (∀ k, k ≠ "id" → k ∉ userFields → req.get k = none) :=
  ⟨by decide, by decide,
    C4_patch_map_has_exactly_supplied_fields
      ⟨[("id", "42")], .value (.object [("email", .string "a@b.com")])⟩ 42
      [("email", .string "a@b.com")] (by decide) (by decide) rfl (by decide)
      ⟨"email", by decide, by decide⟩⟩

/-- C5: for a PatchUser request whose identifier parses to `id >= 1` and whose
well-formed body supplies a string for none of `name`, `password`, `email` (as the body
`{}` does), the decoder returns `ErrInvalidRequest` and no request. -/
theorem C5_patch_without_fields_rejected (r : Request) (id : Int)
    (members : List (String × JSON))
    (hlit : int64Literal (Vars r "id") = some id) (hid : 1 ≤ id)
    (hbody : r.body = .value (.object members))
    (hw : wellFormed userFields r.body = true)
    (hnone : ∀ f ∈ userFields, suppliedString f members = none) :
    decodePatchUserRequest r = .err .ErrInvalidRequest := by
  rw [hbody] at hw
  obtain ⟨st, hdec, hval⟩ := Decode_spec (by decide) members hw
  rw [← hbody] at hdec
  rw [decodePatch_of_decode r id st (ParseInt_of_literal hlit) hid hdec,
    hval "name" (by decide), hval "password" (by decide), hval "email" (by decide),
    patchOf_fieldOf]
  have hnil : (userFields.filter fun f => (suppliedString f members).isSome) = [] := by
    apply List.filter_eq_nil_iff.2
    intro f hf
    simp [hnone f hf]
  rw [if_pos hnil]

/-- Witness of C5: `PATCH /users/42` with the body `{}`. -/
theorem C5_patch_without_fields_rejected_witness :
    int64Literal (Vars ⟨[("id", "42")], .value (.object [])⟩ "id") = some 42 ∧
    wellFormed userFields (.value (.object [])) = true ∧
    (∀ f ∈ userFields, suppliedString f [] = none) ∧
    decodePatchUserRequest ⟨[("id", "42")], .value (.object [])⟩ = .err .ErrInvalidRequest :=
  ⟨by decide, by decide, by decide,
    C5_patch_without_fields_rejected ⟨[("id", "42")], .value (.object [])⟩ 42 []
      (by decide) (by decide) rfl (by decide) (by decide)⟩

/-- C6: in PatchUser a field set to `null` is treated exactly like an absent field.
Let `S` be a set of field names and `members` an object in which every member addressed
to a field of `S` is `null`; the object without those members gives the same result of
`decodePatchUserRequest`, for every identifier. In particular the fields of `S` are not
supplied: they add no key and do not count towards the at-least-one-field rule. -/
theorem C6_patch_null_same_as_absent (vars : List (String × String))
    (members : List (String × JSON)) (S : List String)
    (hnull : ∀ kv ∈ members, addresses S kv.1 = true → kv.2.isNull = true) :
    decodePatchUserRequest ⟨vars, .value (.object (members.filter fun kv => !addresses S kv.1))⟩ =
      decodePatchUserRequest ⟨vars, .value (.object members)⟩ ∧
    ∀ f ∈ S, suppliedString f members = none := by
  constructor
  · have hdec := Decode_filter_null userFields S members
      (fun kv hkv ha => JSON.eq_null_of_isNull (hnull kv hkv ha))
    unfold decodePatchUserRequest
    simp only [Vars, hdec]
  · intro f hf
    apply suppliedString_none_of_null
    intro kv hkv he
    exact hnull kv hkv ((addresses_iff _ _).2 ⟨f, hf, (equalFold_iff _ _).1 he⟩)

/-- Witness of C6: identifier `42`, the body `{"name": null, "email": "a@b.com"}` against
the body `{"email": "a@b.com"}`, with `S = {name}`. -/
theorem C6_patch_null_same_as_absent_witness :
    (∀ kv ∈ [("name", JSON.null), ("email", JSON.string "a@b.com")],
      addresses ["name"] kv.1 = true → kv.2.isNull = true) ∧
    (decodePatchUserRequest ⟨[("id", "42")], .value (.object
        ([("name", JSON.null), ("email", JSON.string "a@b.com")].filter
          fun kv => !addresses ["name"] kv.1))⟩ =
      decodePatchUserRequest ⟨[("id", "42")], .value (.object
        [("name", JSON.null), ("email", JSON.string "a@b.com")])⟩ ∧
    ∀ f ∈ ["name"],
      suppliedString f [("name", JSON.null), ("email", JSON.string "a@b.com")] = none) :=
  ⟨by decide,
    C6_patch_null_same_as_absent [("id", "42")]
      [("name", JSON.null), ("email", JSON.string "a@b.com")] ["name"] (by decide)⟩

/-- C7, counterexample: the CreateUser bodies `{}` (key `name` absent) and
`{"name": null}` (key present with `null`) give the same command, so the decoding does
not tell the two states apart. -/
theorem C7_absent_and_null_build_same_command :
    decodeCreateUserRequest ⟨[], .value (.object [])⟩ =
      decodeCreateUserRequest ⟨[], .value (.object [("name", .null)])⟩ ∧
    decodeCreateUserRequest ⟨[], .value (.object [("name", .null)])⟩ =
      .ok ⟨⟨"", false⟩, ⟨"", false⟩, ⟨"", false⟩⟩ := by
  decide

/-- C7, amended: the decoding into `null.String` has two states. For a well-formed
CreateUser body in which no member is addressed to the field `f` (one of `name`,
`password`, `email`), the body itself and the body with the member `f: null` added
anywhere both decode `f` as not valid and empty, and build the same command; the body
with the member `f: s` added, for a string `s`, decodes `f` as valid with value `s` and
builds a different command. -/
theorem C7_optional_field_has_two_states (vars : List (String × String))
    (pre post : List (String × JSON)) (f s : String) (hf : f ∈ userFields)
    (hw : wellFormed userFields (.value (.object (pre ++ post))) = true)
    (habs : ∀ kv ∈ pre ++ post, equalFold f kv.1 = false) :
    (∃ sa sn ss,
      Decode userFields (.value (.object (pre ++ post))) = .ok sa ∧
      Decode userFields (.value (.object (pre ++ (f, .null) :: post))) = .ok sn ∧
      Decode userFields (.value (.object (pre ++ (f, .string s) :: post))) = .ok ss ∧
      sa f = ⟨"", false⟩ ∧ sn f = ⟨"", false⟩ ∧ ss f = ⟨s, true⟩) ∧
    ∃ c, decodeCreateUserRequest ⟨vars, .value (.object (pre ++ post))⟩ = .ok c ∧
      decodeCreateUserRequest ⟨vars, .value (.object (pre ++ (f, .null) :: post))⟩ = .ok c ∧
      decodeCreateUserRequest ⟨vars, .value (.object (pre ++ (f, .string s) :: post))⟩
        ≠ .ok c := by
  have ha : fieldOf f (pre ++ post) = ⟨"", false⟩ := by
    simp [fieldOf, suppliedString, lastMember_absent f _ habs]
  have hn : fieldOf f (pre ++ (f, .null) :: post) = ⟨"", false⟩ := by
    simp [fieldOf, suppliedString, lastMember_insert_self f _ pre post habs]
  have hs : fieldOf f (pre ++ (f, .string s) :: post) = ⟨s, true⟩ := by
    simp [fieldOf, suppliedString, lastMember_insert_self f _ pre post habs]
  have hwn := wellFormed_insert hw f .null rfl
  have hws := wellFormed_insert hw f (.string s) rfl
  obtain ⟨sa, hda, hva⟩ := Decode_spec (by decide) _ hw
  obtain ⟨sn, hdn, hvn⟩ := Decode_spec (by decide) _ hwn
  obtain ⟨ss, hds, hvs⟩ := Decode_spec (by decide) _ hws
  refine ⟨⟨sa, sn, ss, hda, hdn, hds, (hva f hf).trans ha, (hvn f hf).trans hn,
    (hvs f hf).trans hs⟩, _, decodeCreateUser_of_wellFormed vars _ hw, ?_, ?_⟩
  · have hfilter : (pre ++ (f, JSON.null) :: post).filter (fun kv => !addresses [f] kv.1)
        = pre ++ post := by
      have hp : pre.filter (fun kv => !addresses [f] kv.1) = pre := by
        apply List.filter_eq_self.2
        intro kv hkv
        simp [addresses, habs kv (List.mem_append_left _ hkv)]
      have hq : post.filter (fun kv => !addresses [f] kv.1) = post := by
        apply List.filter_eq_self.2
        intro kv hkv
        simp [addresses, habs kv (List.mem_append_right _ hkv)]
      rw [List.filter_append, List.filter_cons, hp, hq]
      simp [addresses, equalFold_self]
    have hdec := Decode_filter_null userFields [f] (pre ++ (f, JSON.null) :: post) (by
      intro kv hkv hadd
      rcases List.mem_append.1 hkv with h | h
      · simp [addresses, habs kv (List.mem_append_left _ h)] at hadd
      · rcases List.mem_cons.1 h with h | h
        · rw [h]
        · simp [addresses, habs kv (List.mem_append_right _ h)] at hadd)
    rw [hfilter] at hdec
    rw [← decodeCreateUser_of_wellFormed vars _ hw]
    unfold decodeCreateUserRequest
    simp only [hdec]
  · rw [decodeCreateUser_of_wellFormed vars _ hws]
    intro heq
    simp only [Result.ok.injEq, createUserRequest.mk.injEq] at heq
    obtain ⟨h1, h2, h3⟩ := heq
    simp only [userFields, List.mem_cons, List.mem_singleton, List.not_mem_nil, or_false] at hf
    rcases hf with rfl | rfl | rfl
    · rw [hs, ha] at h1; simp at h1
    · rw [hs, ha] at h2; simp at h2
    · rw [hs, ha] at h3; simp at h3

/-- Witness of C7 (amended): the bodies `{"email": "e"}`, `{"email": "e", "name": null}`
and `{"email": "e", "name": "n"}`. -/
theorem C7_optional_field_has_two_states_witness :
    "name" ∈ userFields ∧
    wellFormed userFields (.value (.object ([("email", .string "e")] ++ []))) = true ∧
    (∀ kv ∈ [("email", JSON.string "e")] ++ [], equalFold "name" kv.1 = false) ∧
    (∃ sa sn ss,
      Decode userFields (.value (.object ([("email", .string "e")] ++ []))) = .ok sa ∧
      Decode userFields (.value (.object ([("email", .string "e")] ++ ("name", .null) :: [])))
        = .ok sn ∧
      Decode userFields
        (.value (.object ([("email", .string "e")] ++ ("name", .string "n") :: []))) = .ok ss ∧
      sa "name" = ⟨"", false⟩ ∧ sn "name" = ⟨"", false⟩ ∧ ss "name" = ⟨"n", true⟩) ∧
    ∃ c, decodeCreateUserRequest ⟨[], .value (.object ([("email", .string "e")] ++ []))⟩
         = .ok c ∧
      decodeCreateUserRequest
         ⟨[], .value (.object ([("email", .string "e")] ++ ("name", .null) :: []))⟩ = .ok c ∧
      decodeCreateUserRequest
         ⟨[], .value (.object ([("email", .string "e")] ++ ("name", .string "n") :: []))⟩
       ≠ .ok c :=
  ⟨by decide, by decide, by decide,
    C7_optional_field_has_two_states [] [("email", .string "e")] [] "name" "n"
      (by decide) (by decide) (by decide)⟩

/-- C8 (the code departs from the claim): take an UpdatePassword request whose
identifier parses to `id` and whose well-formed body supplies `"password"` as the string
`p`, with no key spelled `NewPassword` up to case (the body may supply `"new_password"`
as any string). Then `decodeUpdatePasswordEndpoint` returns a request with `ID = id` and
the current password valid and equal to `p`, but with the new password not valid and
empty: the body struct has no field tags, so the key `"new_password"` matches neither
`Password` nor `NewPassword` and its value is dropped. -/
theorem C8_update_password_drops_new_password (r : Request) (id : Int)
    (members : List (String × JSON)) (p : String)
    (hlit : int64Literal (Vars r "id") = some id)
    (hbody : r.body = .value (.object members))
    (hw : wellFormed ["Password", "NewPassword"] r.body = true)
    (hp : suppliedString "password" members = some p)
    (hkeys : ∀ kv ∈ members, equalFold "NewPassword" kv.1 = false) :
    equalFold "NewPassword" "new_password" = false ∧
    decodeUpdatePasswordEndpoint r = .ok ⟨id, ⟨p, true⟩, ⟨"", false⟩⟩ := by
  refine ⟨by decide, ?_⟩
  rw [decodeUpdatePassword_of_wellFormed r id members (ParseInt_of_literal hlit) hbody hw,
    fieldOf_congr (show foldName "Password" = foldName "password" by decide),
    fieldOf_of_supplied hp, fieldOf_of_absent (lastMember_absent _ _ hkeys)]

/-- Witness of C8: `PUT /users/7/password` with the body
`{"password": "p", "new_password": "n"}`. -/
theorem C8_update_password_drops_new_password_witness :
    int64Literal (Vars ⟨[("id", "7")],
      .value (.object [("password", .string "p"), ("new_password", .string "n")])⟩ "id")
      = some (7) ∧
    wellFormed ["Password", "NewPassword"]
      (.value (.object [("password", .string "p"), ("new_password", .string "n")])) = true ∧
    suppliedString "password" [("password", .string "p"), ("new_password", .string "n")]
      = some "p" ∧
    suppliedString "new_password" [("password", .string "p"), ("new_password", .string "n")]
      = some "n" ∧
    (equalFold "NewPassword" "new_password" = false ∧
     decodeUpdatePasswordEndpoint ⟨[("id", "7")],
       .value (.object [("password", .string "p"), ("new_password", .string "n")])⟩
       = .ok ⟨7, ⟨"p", true⟩, ⟨"", false⟩⟩) :=
  ⟨by decide, by decide, by decide, by decide,
    C8_update_password_drops_new_password
      ⟨[("id", "7")], .value (.object [("password", .string "p"), ("new_password", .string "n")])⟩
      7 [("password", .string "p"), ("new_password", .string "n")] "p"
      (by decide) rfl (by decide) (by decide) (by decide)⟩

/-- C9: for a CreatePassword request whose identifier parses to an integer `id` of any
sign and whose body is well-formed, `decodeCreatePasswordRequest` succeeds with
`ID = id`; a `token` supplied as the string `t` gives a valid token equal to `t`, a
`new_password` supplied as the string `n` gives a valid new password equal to `n`, and a
key that is absent gives the corresponding field as not valid. -/
theorem C9_create_password_fields (r : Request) (id : Int) (members : List (String × JSON))
    (hlit : int64Literal (Vars r "id") = some id)
    (hbody : r.body = .value (.object members))
    (hw : wellFormed ["token", "new_password"] r.body = true) :
    ∃ c, decodeCreatePasswordRequest r = .ok c ∧ c.ID = id ∧
      (∀ t, suppliedString "token" members = some t → c.Token = ⟨t, true⟩) ∧
      (∀ n, suppliedString "new_password" members = some n → c.NewPassword = ⟨n, true⟩) ∧
      (lastMember "token" members = none → c.Token = ⟨"", false⟩) ∧
      (lastMember "new_password" members = none → c.NewPassword = ⟨"", false⟩) :=
  ⟨_, decodeCreatePassword_of_wellFormed r id members (ParseInt_of_literal hlit) hbody hw, rfl,
    fun _ h => fieldOf_of_supplied h, fun _ h => fieldOf_of_supplied h,
    fieldOf_of_absent, fieldOf_of_absent⟩

/-- Witness of C9: `POST /users/7/password` with the body
`{"token": "abc", "new_password": "x"}`. -/
theorem C9_create_password_fields_witness :
    int64Literal (Vars ⟨[("id", "7")],
      .value (.object [("token", .string "abc"), ("new_password", .string "x")])⟩ "id")
      = some (7) ∧
    wellFormed ["token", "new_password"]
      (.value (.object [("token", .string "abc"), ("new_password", .string "x")])) = true ∧
    ∃ c, decodeCreatePasswordRequest ⟨[("id", "7")],
        .value (.object [("token", .string "abc"), ("new_password", .string "x")])⟩ = .ok c ∧
      c.ID = 7 ∧ c.Token = ⟨"abc", true⟩ ∧ c.NewPassword = ⟨"x", true⟩ := by
  obtain ⟨c, h1, h2, h3, h4, _, _⟩ := C9_create_password_fields
    ⟨[("id", "7")], .value (.object [("token", .string "abc"), ("new_password", .string "x")])⟩
    7 [("token", .string "abc"), ("new_password", .string "x")] (by decide) rfl (by decide)
  exact ⟨by decide, by decide, c, h1, h2, h3 "abc" (by decide), h4 "x" (by decide)⟩

/-- C10: GetUser, CreatePassword and UpdatePassword do not look at the sign of the
identifier. For every identifier that parses to an integer `id` (zero and negative
values included), `decodeGetUserRequest` returns the request with `ID = id`, and on a
well-formed body `decodeCreatePasswordRequest` and `decodeUpdatePasswordEndpoint` succeed
with `ID = id`. -/
theorem C10_no_sign_check (r : Request) (id : Int)
    (hlit : int64Literal (Vars r "id") = some id) :
    decodeGetUserRequest r = .ok ⟨id⟩ ∧
    (wellFormed ["token", "new_password"] r.body = true →
      ∃ c, decodeCreatePasswordRequest r = .ok c ∧ c.ID = id) ∧
    (wellFormed ["Password", "NewPassword"] r.body = true →
      ∃ c, decodeUpdatePasswordEndpoint r = .ok c ∧ c.ID = id) := by
  refine ⟨?_, ?_, ?_⟩
  · unfold decodeGetUserRequest
    simp [(ParseInt_of_literal hlit)]
  · intro hw
    obtain ⟨members, hbody⟩ := wellFormed_object hw
    exact ⟨_, decodeCreatePassword_of_wellFormed r id members (ParseInt_of_literal hlit) hbody hw, rfl⟩
  · intro hw
    obtain ⟨members, hbody⟩ := wellFormed_object hw
    exact ⟨_, decodeUpdatePassword_of_wellFormed r id members (ParseInt_of_literal hlit) hbody hw, rfl⟩

/-- Witness of C10: the identifier `"0"`, as in `GET /users/0`, with the body
`{"new_password": "x"}`. -/
theorem C10_no_sign_check_witness :
    int64Literal (Vars ⟨[("id", "0")], .value (.object [("new_password", .string "x")])⟩ "id")
      = some 0 ∧
    wellFormed ["token", "new_password"]
      (.value (.object [("new_password", .string "x")])) = true ∧
    wellFormed ["Password", "NewPassword"]
      (.value (.object [("new_password", .string "x")])) = true ∧
    decodeGetUserRequest ⟨[("id", "0")], .value (.object [("new_password", .string "x")])⟩
      = .ok ⟨0⟩ ∧
    (∃ c, decodeCreatePasswordRequest
      ⟨[("id", "0")], .value (.object [("new_password", .string "x")])⟩ = .ok c ∧ c.ID = 0) ∧
    (∃ c, decodeUpdatePasswordEndpoint
      ⟨[("id", "0")], .value (.object [("new_password", .string "x")])⟩ = .ok c ∧ c.ID = 0) :=
  ⟨by decide, by decide, by decide,
    (C10_no_sign_check ⟨[("id", "0")], .value (.object [("new_password", .string "x")])⟩ 0
      (by decide)).1,
    (C10_no_sign_check ⟨[("id", "0")], .value (.object [("new_password", .string "x")])⟩ 0
      (by decide)).2.1 (by decide),
    (C10_no_sign_check ⟨[("id", "0")], .value (.object [("new_password", .string "x")])⟩ 0
      (by decide)).2.2 (by decide)⟩

/-- C11: each of the six decoders that read a body returns the error of the body
decoder unchanged, and no request, when the identifier (for the decoders that take one)
is valid for it (it parses, and for PatchUser it is at least 1) and the decoding of the
body fails with the error `e`; a body that is not JSON always fails so, and the error
returned is never `ErrInvalidRequest`. -/
theorem C11_decode_error_passed_through (r : Request) :
    (∀ e, Decode userFields r.body = .error e →
      decodeCreateUserRequest r = .err (.decode e)) ∧
    (∀ e, Decode ["name_or_email"] r.body = .error e →
      decodeResetPasswordRequest r = .err (.decode e)) ∧
    (∀ id e, int64Literal (Vars r "id") = some id → Decode userFields r.body = .error e →
      decodeUpdateUserRequest r = .err (.decode e)) ∧
    (∀ id e, int64Literal (Vars r "id") = some id → 1 ≤ id →
      Decode userFields r.body = .error e →
      decodePatchUserRequest r = .err (.decode e)) ∧
    (∀ id e, int64Literal (Vars r "id") = some id →
      Decode ["token", "new_password"] r.body = .error e →
      decodeCreatePasswordRequest r = .err (.decode e)) ∧
    (∀ id e, int64Literal (Vars r "id") = some id →
      Decode ["Password", "NewPassword"] r.body = .error e →
      decodeUpdatePasswordEndpoint r = .err (.decode e)) ∧
    (∀ msg, r.body = .malformed msg → ∀ fields, Decode fields r.body = .error (.malformed msg)) ∧
    ∀ e, Error.decode e ≠ Error.ErrInvalidRequest := by
  refine ⟨?_, ?_, ?_, ?_, ?_, ?_, ?_, ?_⟩
  · intro e he
    unfold decodeCreateUserRequest
    simp only [he]
  · intro e he
    unfold decodeResetPasswordRequest
    simp only [he]
  · intro id e hlit he
    unfold decodeUpdateUserRequest
    simp only [ParseInt_of_literal hlit, he, ne_eq, not_true_eq_false, if_false]
  · intro id e hlit hid he
    have hid' : ¬ id ≤ 0 := by omega
    unfold decodePatchUserRequest
    simp only [ParseInt_of_literal hlit, he, ne_eq, not_true_eq_false, hid', or_self, if_false]
  · intro id e hlit he
    unfold decodeCreatePasswordRequest
    simp only [ParseInt_of_literal hlit, he, ne_eq, not_true_eq_false, if_false]
  · intro id e hlit he
    unfold decodeUpdatePasswordEndpoint
    simp only [ParseInt_of_literal hlit, he, ne_eq, not_true_eq_false, if_false]
  · intro msg hb fields
    rw [hb]
    rfl
  · intro e h
    exact Error.noConfusion h

/-- Witness of C11: the identifier `42` with a body that is not JSON (the decoder
reports `unexpected EOF`). -/
theorem C11_decode_error_passed_through_witness :
    int64Literal (Vars ⟨[("id", "42")], .malformed "unexpected EOF"⟩ "id") = some 42 ∧
    decodeCreateUserRequest ⟨[("id", "42")], .malformed "unexpected EOF"⟩
      = .err (.decode (.malformed "unexpected EOF")) ∧
    decodeResetPasswordRequest ⟨[("id", "42")], .malformed "unexpected EOF"⟩
      = .err (.decode (.malformed "unexpected EOF")) ∧
    decodeUpdateUserRequest ⟨[("id", "42")], .malformed "unexpected EOF"⟩
      = .err (.decode (.malformed "unexpected EOF")) ∧
    decodePatchUserRequest ⟨[("id", "42")], .malformed "unexpected EOF"⟩
      = .err (.decode (.malformed "unexpected EOF")) ∧
    decodeCreatePasswordRequest ⟨[("id", "42")], .malformed "unexpected EOF"⟩
      = .err (.decode (.malformed "unexpected EOF")) ∧
    decodeUpdatePasswordEndpoint ⟨[("id", "42")], .malformed "unexpected EOF"⟩
      = .err (.decode (.malformed "unexpected EOF")) :=
  ⟨by decide,
    (C11_decode_error_passed_through ⟨[("id", "42")], .malformed "unexpected EOF"⟩).1 _ rfl,
    (C11_decode_error_passed_through ⟨[("id", "42")], .malformed "unexpected EOF"⟩).2.1 _ rfl,
    (C11_decode_error_passed_through ⟨[("id", "42")], .malformed "unexpected EOF"⟩).2.2.1
      42 _ (by decide) rfl,
    (C11_decode_error_passed_through ⟨[("id", "42")], .malformed "unexpected EOF"⟩).2.2.2.1
      42 _ (by decide) (by decide) rfl,
    (C11_decode_error_passed_through ⟨[("id", "42")], .malformed "unexpected EOF"⟩).2.2.2.2.1
      42 _ (by decide) rfl,
    (C11_decode_error_passed_through ⟨[("id", "42")], .malformed "unexpected EOF"⟩).2.2.2.2.2.1
      42 _ (by decide) rfl⟩

/-- C12: `decodeCreateUserRequest` succeeds on every well-formed body, whatever subset
of `name`, `password`, `email` it supplies (none included): the request holds exactly
the three fields the body decoder produced, and each is valid with the supplied string
when the body supplies one, and not valid otherwise. -/
theorem C12_create_user_accepts_every_wellformed_body (r : Request)
    (members : List (String × JSON))
    (hbody : r.body = .value (.object members))
    (hw : wellFormed userFields r.body = true) :
    ∃ st, Decode userFields r.body = .ok st ∧
      decodeCreateUserRequest r = .ok ⟨st "name", st "password", st "email"⟩ ∧
      ∀ f ∈ userFields,
        (∀ s, suppliedString f members = some s → st f = ⟨s, true⟩) ∧
        (suppliedString f members = none → st f = ⟨"", false⟩) := by
  rw [hbody] at hw
  obtain ⟨st, hdec, hval⟩ := Decode_spec (by decide) members hw
  rw [← hbody] at hdec
  refine ⟨st, hdec, ?_, ?_⟩
  · unfold decodeCreateUserRequest
    simp only [hdec]
  · intro f hf
    rw [hval f hf]
    exact ⟨fun s hs => fieldOf_of_supplied hs, fun hn => by simp [fieldOf, hn]⟩

/-- Witness of C12: `POST /users` with the body `{}`. -/
theorem C12_create_user_accepts_every_wellformed_body_witness :
    wellFormed userFields (.value (.object [])) = true ∧
    ∃ st, Decode userFields (.value (.object [])) = .ok st ∧
      decodeCreateUserRequest ⟨[], .value (.object [])⟩
        = .ok ⟨st "name", st "password", st "email"⟩ ∧
      ∀ f ∈ userFields,
        (∀ s, suppliedString f [] = some s → st f = ⟨s, true⟩) ∧
        (suppliedString f [] = none → st f = ⟨"", false⟩) :=
  ⟨by decide,
    C12_create_user_accepts_every_wellformed_body ⟨[], .value (.object [])⟩ [] rfl
      (by decide)⟩

/-- C13: `decodeUpdateUserRequest` has no minimum number of fields. For an identifier
that parses to `id >= 1` and every well-formed body, the body `{}` included, it returns
an `updateUserRequest` with `ID = id` whose `Name`, `Password`, `Email` are the fields
the body decoder produced: valid with the supplied string when the body supplies one,
not valid otherwise. -/
theorem C13_update_user_needs_no_field (r : Request) (id : Int)
    (members : List (String × JSON))
    (hlit : int64Literal (Vars r "id") = some id) (_ : 1 ≤ id)
    (hbody : r.body = .value (.object members))
    (hw : wellFormed userFields r.body = true) :
    ∃ st, Decode userFields r.body = .ok st ∧
      decodeUpdateUserRequest r = .ok ⟨id, st "name", st "password", st "email"⟩ ∧
      ∀ f ∈ userFields,
        (∀ s, suppliedString f members = some s → st f = ⟨s, true⟩) ∧
        (suppliedString f members = none → st f = ⟨"", false⟩) := by
  rw [hbody] at hw
  obtain ⟨st, hdec, hval⟩ := Decode_spec (by decide) members hw
  rw [← hbody] at hdec
  refine ⟨st, hdec, decodeUpdateUser_of_decode r id st (ParseInt_of_literal hlit) hdec, ?_⟩
  intro f hf
  rw [hval f hf]
  exact ⟨fun s hs => fieldOf_of_supplied hs, fun hn => by simp [fieldOf, hn]⟩

/-- Witness of C13: `PUT /users/42` with the body `{}`. -/
theorem C13_update_user_needs_no_field_witness :
    int64Literal (Vars ⟨[("id", "42")], .value (.object [])⟩ "id") = some 42 ∧
    wellFormed userFields (.value (.object [])) = true ∧
    (1 : Int) ≤ 42 ∧
    ∃ st, Decode userFields (.value (.object [])) = .ok st ∧
      decodeUpdateUserRequest ⟨[("id", "42")], .value (.object [])⟩
        = .ok ⟨42, st "name", st "password", st "email"⟩ ∧
      ∀ f ∈ userFields,
        (∀ s, suppliedString f [] = some s → st f = ⟨s, true⟩) ∧
        (suppliedString f [] = none → st f = ⟨"", false⟩) :=
  ⟨by decide, by decide, by decide,
    C13_update_user_needs_no_field ⟨[("id", "42")], .value (.object [])⟩ 42 []
      (by decide) (by decide) rfl (by decide)⟩

/-- C14 (the code departs from the claim): the decoders are not all panic-free.
`DELETE /users/0`, and `PATCH /users/0` with the body `{"email": "e"}`, panic: the
rejection branch is entered through `id <= 0` with a nil `err`, and `err.Error()` is
evaluated for the log line. For every request, `decodePatchUserRequest` and
`decodeDeleteUserRequest` panic exactly when the identifier parses to an integer
`id <= 0`; the other six decoders never panic. -/
theorem C14_panic_exactly_on_nonpositive_id :
    (decodeDeleteUserRequest ⟨[("id", "0")], .value (.object [])⟩ = .panic ∧
     decodePatchUserRequest ⟨[("id", "0")], .value (.object [("email", .string "e")])⟩
       = .panic) ∧
    ∀ r : Request,
      decodeCreateUserRequest r ≠ .panic ∧
      decodeUpdateUserRequest r ≠ .panic ∧
      decodeGetUserRequest r ≠ .panic ∧
      decodeResetPasswordRequest r ≠ .panic ∧
      decodeCreatePasswordRequest r ≠ .panic ∧
      decodeUpdatePasswordEndpoint r ≠ .panic ∧
      (decodePatchUserRequest r = .panic ↔
        ∃ id, int64Literal (Vars r "id") = some id ∧ id ≤ 0) ∧
      (decodeDeleteUserRequest r = .panic ↔
        ∃ id, int64Literal (Vars r "id") = some id ∧ id ≤ 0) := by
  refine ⟨by decide, fun r => ⟨?_, ?_, ?_, ?_, ?_, ?_, ?_, ?_⟩⟩
  · unfold decodeCreateUserRequest
    cases Decode userFields r.body <;> simp
  · rcases decodeUpdateUser_cases r with h | ⟨e, h⟩ | ⟨c, h, _⟩ <;> simp [h]
  · rcases decodeGetUser_cases r with h | ⟨c, h, _⟩ <;> simp [h]
  · unfold decodeResetPasswordRequest
    cases Decode ["name_or_email"] r.body <;> simp
  · rcases decodeCreatePassword_cases r with h | ⟨e, h⟩ | ⟨c, h, _⟩ <;> simp [h]
  · rcases decodeUpdatePassword_cases r with h | ⟨e, h⟩ | ⟨c, h, _⟩ <;> simp [h]
  · constructor
    · intro hpanic
      rcases decodePatchUser_cases r with ⟨e, h⟩ | ⟨_, id, hp, hid⟩ | ⟨req, id, h, _⟩
      · rw [h] at hpanic; exact Result.noConfusion hpanic
      · exact ⟨id, int64Literal_of_ParseInt hp, hid⟩
      · rw [h] at hpanic; exact Result.noConfusion hpanic
    · rintro ⟨id, hlit, hid⟩
      unfold decodePatchUserRequest
      simp [ParseInt_of_literal hlit, hid, errorString]
  · constructor
    · intro hpanic
      rcases decodeDeleteUser_cases r with h | ⟨_, id, hp, hid⟩ | ⟨c, h, _⟩
      · rw [h] at hpanic; exact Result.noConfusion hpanic
      · exact ⟨id, int64Literal_of_ParseInt hp, hid⟩
      · rw [h] at hpanic; exact Result.noConfusion hpanic
    · rintro ⟨id, hlit, hid⟩
      unfold decodeDeleteUserRequest
      simp [ParseInt_of_literal hlit, hid, errorString]

/-- C15: the identifier is read as a signed 64-bit integer. Let the identifier be a
non-empty string of decimal digits with value `v`. If `v > 2^63 - 1`, the six decoders
that take an identifier return `ErrInvalidRequest`. Whatever `v` is, a request that one
of them builds carries exactly `v` as its identifier, and then `v <= 2^63 - 1`: no
wrapped or truncated value. If `1 <= v <= 2^63 - 1` (leading zeros allowed),
`decodeGetUserRequest` and `decodeDeleteUserRequest` return the request with `ID = v`,
and the other four succeed on the bodies they accept. -/
theorem C15_identifier_is_int64 (r : Request)
    (hne : (Vars r "id").data ≠ [])
    (hdig : (Vars r "id").data.all isDecimalDigit = true) :
    (2 ^ 63 - 1 < decimalFrom 0 (Vars r "id").data →
      decodeUpdateUserRequest r = .err .ErrInvalidRequest ∧
      decodePatchUserRequest r = .err .ErrInvalidRequest ∧
      decodeDeleteUserRequest r = .err .ErrInvalidRequest ∧
      decodeGetUserRequest r = .err .ErrInvalidRequest ∧
      decodeCreatePasswordRequest r = .err .ErrInvalidRequest ∧
      decodeUpdatePasswordEndpoint r = .err .ErrInvalidRequest) ∧
    ((∀ c, decodeUpdateUserRequest r = .ok c →
        c.ID = (decimalFrom 0 (Vars r "id").data : Int) ∧ c.ID ≤ 2 ^ 63 - 1) ∧
     (∀ req, decodePatchUserRequest r = .ok req →
        req.get "id" = some (.int64 (decimalFrom 0 (Vars r "id").data : Int)) ∧
        decimalFrom 0 (Vars r "id").data ≤ 2 ^ 63 - 1) ∧
     (∀ c, decodeDeleteUserRequest r = .ok c →
        c.ID = (decimalFrom 0 (Vars r "id").data : Int) ∧ c.ID ≤ 2 ^ 63 - 1) ∧
     (∀ c, decodeGetUserRequest r = .ok c →
        c.ID = (decimalFrom 0 (Vars r "id").data : Int) ∧ c.ID ≤ 2 ^ 63 - 1) ∧
     (∀ c, decodeCreatePasswordRequest r = .ok c →
        c.ID = (decimalFrom 0 (Vars r "id").data : Int) ∧ c.ID ≤ 2 ^ 63 - 1) ∧
     (∀ c, decodeUpdatePasswordEndpoint r = .ok c →
        c.ID = (decimalFrom 0 (Vars r "id").data : Int) ∧ c.ID ≤ 2 ^ 63 - 1)) ∧
    (1 ≤ decimalFrom 0 (Vars r "id").data → decimalFrom 0 (Vars r "id").data ≤ 2 ^ 63 - 1 →
      decodeGetUserRequest r = .ok ⟨(decimalFrom 0 (Vars r "id").data : Int)⟩ ∧
      decodeDeleteUserRequest r = .ok ⟨(decimalFrom 0 (Vars r "id").data : Int)⟩ ∧
      (wellFormed userFields r.body = true → ∃ c, decodeUpdateUserRequest r = .ok c) ∧
      (wellFormed ["token", "new_password"] r.body = true →
        ∃ c, decodeCreatePasswordRequest r = .ok c) ∧
      (wellFormed ["Password", "NewPassword"] r.body = true →
        ∃ c, decodeUpdatePasswordEndpoint r = .ok c) ∧
      (∀ members, r.body = .value (.object members) → wellFormed userFields r.body = true →
        (∃ f ∈ userFields, (suppliedString f members).isSome = true) →
        ∃ req, decodePatchUserRequest r = .ok req)) := by
  have hlit := int64Literal_of_digits (Vars r "id") hne hdig
  generalize decimalFrom 0 (Vars r "id").data = v at hlit ⊢
  have hexact : ∀ id : Int, ParseInt (Vars r "id") = (id, none) →
      id = (v : Int) ∧ id ≤ 2 ^ 63 - 1 := by
    intro id hp
    have h1 := int64Literal_of_ParseInt hp
    rw [hlit] at h1
    by_cases hr : v ≤ 2 ^ 63 - 1
    · rw [if_pos hr] at h1
      simp only [Option.some.injEq] at h1
      exact ⟨h1.symm, by omega⟩
    · rw [if_neg hr] at h1
      exact Option.noConfusion h1
  refine ⟨?_, ⟨?_, ?_, ?_, ?_, ?_, ?_⟩, ?_⟩
  · intro hbig
    have hr : ¬ v ≤ 2 ^ 63 - 1 := by omega
    rw [if_neg hr] at hlit
    exact idDecoders_of_not_literal r hlit
  · intro c hc
    rcases decodeUpdateUser_cases r with h | ⟨e, h⟩ | ⟨c', h, hp⟩
    · rw [h] at hc; exact Result.noConfusion hc
    · rw [h] at hc; exact Result.noConfusion hc
    · rw [h] at hc
      simp only [Result.ok.injEq] at hc
      subst hc
      exact hexact _ hp
  · intro req hreq
    rcases decodePatchUser_cases r with ⟨e, h⟩ | ⟨h, _⟩ | ⟨req', id, h, hp, _, hget⟩
    · rw [h] at hreq; exact Result.noConfusion hreq
    · rw [h] at hreq; exact Result.noConfusion hreq
    · rw [h] at hreq
      simp only [Result.ok.injEq] at hreq
      subst hreq
      obtain ⟨h1, h2⟩ := hexact id hp
      rw [hget, h1]
      exact ⟨rfl, by omega⟩
  · intro c hc
    rcases decodeDeleteUser_cases r with h | ⟨h, _⟩ | ⟨c', h, hp, _⟩
    · rw [h] at hc; exact Result.noConfusion hc
    · rw [h] at hc; exact Result.noConfusion hc
    · rw [h] at hc
      simp only [Result.ok.injEq] at hc
      subst hc
      exact hexact _ hp
  · intro c hc
    rcases decodeGetUser_cases r with h | ⟨c', h, hp⟩
    · rw [h] at hc; exact Result.noConfusion hc
    · rw [h] at hc
      simp only [Result.ok.injEq] at hc
      subst hc
      exact hexact _ hp
  · intro c hc
    rcases decodeCreatePassword_cases r with h | ⟨e, h⟩ | ⟨c', h, hp⟩
    · rw [h] at hc; exact Result.noConfusion hc
    · rw [h] at hc; exact Result.noConfusion hc
    · rw [h] at hc
      simp only [Result.ok.injEq] at hc
      subst hc
      exact hexact _ hp
  · intro c hc
    rcases decodeUpdatePassword_cases r with h | ⟨e, h⟩ | ⟨c', h, hp⟩
    · rw [h] at hc; exact Result.noConfusion hc
    · rw [h] at hc; exact Result.noConfusion hc
    · rw [h] at hc
      simp only [Result.ok.injEq] at hc
      subst hc
      exact hexact _ hp
  · intro h1 hr
    rw [if_pos hr] at hlit
    have hp := ParseInt_of_literal hlit
    have hpos : ¬ ((v : Int) ≤ 0) := by omega
    refine ⟨?_, ?_, ?_, ?_, ?_, ?_⟩
    · unfold decodeGetUserRequest
      simp [hp]
    · unfold decodeDeleteUserRequest
      simp [hp, hpos]
    · intro hw
      obtain ⟨members, hbody⟩ := wellFormed_object hw
      rw [hbody] at hw
      obtain ⟨st, hdec, _⟩ := Decode_spec (by decide) members hw
      rw [← hbody] at hdec
      exact ⟨_, decodeUpdateUser_of_decode r _ st hp hdec⟩
    · intro hw
      obtain ⟨members, hbody⟩ := wellFormed_object hw
      exact ⟨_, decodeCreatePassword_of_wellFormed r _ members hp hbody hw⟩
    · intro hw
      obtain ⟨members, hbody⟩ := wellFormed_object hw
      exact ⟨_, decodeUpdatePassword_of_wellFormed r _ members hp hbody hw⟩
    · intro members hbody hw hsup
      exact ⟨_, decodePatch_ok_of_supplied r _ members hp (by omega) hbody hw hsup⟩

/-- Witness of C15: the digit-only identifier `9223372036854775808` (that is `2^63`) is
rejected by the six decoders, and the identifier `0042` with the body `{"name": "n"}`
gives the identifier `42`. -/
theorem C15_identifier_is_int64_witness :
    ((Vars ⟨[("id", "9223372036854775808")], .value (.object [])⟩ "id").data ≠ [] ∧
     (Vars ⟨[("id", "9223372036854775808")], .value (.object [])⟩ "id").data.all isDecimalDigit
       = true ∧
     2 ^ 63 - 1 <
       decimalFrom 0 (Vars ⟨[("id", "9223372036854775808")], .value (.object [])⟩ "id").data ∧
     decodeUpdateUserRequest ⟨[("id", "9223372036854775808")], .value (.object [])⟩
       = .err .ErrInvalidRequest ∧
     decodePatchUserRequest ⟨[("id", "9223372036854775808")], .value (.object [])⟩
       = .err .ErrInvalidRequest ∧
     decodeDeleteUserRequest ⟨[("id", "9223372036854775808")], .value (.object [])⟩
       = .err .ErrInvalidRequest ∧
     decodeGetUserRequest ⟨[("id", "9223372036854775808")], .value (.object [])⟩
       = .err .ErrInvalidRequest ∧
     decodeCreatePasswordRequest ⟨[("id", "9223372036854775808")], .value (.object [])⟩
       = .err .ErrInvalidRequest ∧
     decodeUpdatePasswordEndpoint ⟨[("id", "9223372036854775808")], .value (.object [])⟩
       = .err .ErrInvalidRequest) ∧
    ((Vars ⟨[("id", "0042")], .value (.object [("name", .string "n")])⟩ "id").data ≠ [] ∧
     (Vars ⟨[("id", "0042")], .value (.object [("name", .string "n")])⟩ "id").data.all
       isDecimalDigit = true ∧
     decimalFrom 0 (Vars ⟨[("id", "0042")], .value (.object [("name", .string "n")])⟩ "id").data
       = 42 ∧
     decodeGetUserRequest ⟨[("id", "0042")], .value (.object [("name", .string "n")])⟩
       = .ok ⟨42⟩ ∧
     decodeDeleteUserRequest ⟨[("id", "0042")], .value (.object [("name", .string "n")])⟩
       = .ok ⟨42⟩ ∧
     (∃ c, decodeUpdateUserRequest ⟨[("id", "0042")], .value (.object [("name", .string "n")])⟩
       = .ok c) ∧
     (∃ req, decodePatchUserRequest ⟨[("id", "0042")], .value (.object [("name", .string "n")])⟩
       = .ok req)) := by
  have h1 := C15_identifier_is_int64 ⟨[("id", "9223372036854775808")], .value (.object [])⟩
    (by decide) (by decide)
  have h2 := C15_identifier_is_int64 ⟨[("id", "0042")], .value (.object [("name", .string "n")])⟩
    (by decide) (by decide)
  have h3 := h2.2.2 (by decide) (by decide)
  exact ⟨⟨by decide, by decide, by decide, h1.1 (by decide)⟩,
    by decide, by decide, by decide, h3.1, h3.2.1, h3.2.2.1 (by decide),
    h3.2.2.2.2.2 [("name", .string "n")] rfl (by decide) ⟨"name", by decide, by decide⟩⟩

/-- C16: in PatchUser a field supplied as the empty string counts as supplied. For an
identifier that parses to `id >= 1` and a well-formed body whose only supplied field `f`
(one of `name`, `password`, `email`) has the value `""`, the decoder succeeds and the map
is `{"id": id, f: ""}`: the key `f` is present and holds the empty string. -/
theorem C16_patch_empty_string_is_supplied (r : Request) (id : Int)
    (members : List (String × JSON)) (f : String)
    (hlit : int64Literal (Vars r "id") = some id) (hid : 1 ≤ id)
    (hbody : r.body = .value (.object members))
    (hw : wellFormed userFields r.body = true)
    (hf : f ∈ userFields)
    (hsup : suppliedString f members = some "")
    (honly : ∀ g ∈ userFields, g ≠ f → suppliedString g members = none) :
    decodePatchUserRequest r = .ok [("id", .int64 id), (f, .string "")] ∧
    patchUserRequest.get [("id", .int64 id), (f, .string "")] f = some (.string "") ∧
    patchUserRequest.keys [("id", .int64 id), (f, .string "")] = ["id", f] := by
  have hok := decodePatch_ok_of_supplied r id members (ParseInt_of_literal hlit) hid hbody hw
    ⟨f, hf, by simp [hsup]⟩
  simp only [userFields, List.mem_cons, List.mem_singleton, List.not_mem_nil, or_false] at hf
  rcases hf with rfl | rfl | rfl
  · have h2 := honly "password" (by decide) (by decide)
    have h3 := honly "email" (by decide) (by decide)
    refine ⟨?_, rfl, rfl⟩
    rw [hok]
    simp [userFields, List.filter_cons, List.filterMap_cons, hsup, h2, h3]
  · have h2 := honly "name" (by decide) (by decide)
    have h3 := honly "email" (by decide) (by decide)
    refine ⟨?_, rfl, rfl⟩
    rw [hok]
    simp [userFields, List.filter_cons, List.filterMap_cons, hsup, h2, h3]
  · have h2 := honly "name" (by decide) (by decide)
    have h3 := honly "password" (by decide) (by decide)
    refine ⟨?_, rfl, rfl⟩
    rw [hok]
    simp [userFields, List.filter_cons, List.filterMap_cons, hsup, h2, h3]

/-- Witness of C16: `PATCH /users/42` with the body `{"name": ""}`. -/
theorem C16_patch_empty_string_is_supplied_witness :
    int64Literal (Vars ⟨[("id", "42")], .value (.object [("name", .string "")])⟩ "id")
      = some 42 ∧
    wellFormed userFields (.value (.object [("name", .string "")])) = true ∧
    suppliedString "name" [("name", .string "")] = some "" ∧
    (∀ g ∈ userFields, g ≠ "name" → suppliedString g [("name", .string "")] = none) ∧
    (decodePatchUserRequest ⟨[("id", "42")], .value (.object [("name", .string "")])⟩
        = .ok [("id", .int64 42), ("name", .string "")] ∧
      patchUserRequest.get [("id", .int64 42), ("name", .string "")] "name"
        = some (.string "") ∧
      patchUserRequest.keys [("id", .int64 42), ("name", .string "")] = ["id", "name"]) :=
  ⟨by decide, by decide, by decide, by decide,
    C16_patch_empty_string_is_supplied ⟨[("id", "42")], .value (.object [("name", .string "")])⟩
      42 [("name", .string "")] "name" (by decide) (by decide) rfl (by decide) (by decide)
      (by decide) (by decide)⟩

end user
